import Mathlib

/-!
A shallow embedding of GeoExt.data.LayerStore (src/data/LayerStore.js), the
bidirectional synchronizer between an Ext data store of layer records (the
model collection) and the layer collection of an OpenLayers map (the target
collection), together with proofs about its handlers.

Layers are identified by numeric ids; the mutable title of each layer lives
in an association list.  Records carry a reference id, the id of their
backing layer (getOlLayer), a title field, and the modified marker Ext keeps
for edited fields.  Event delivery is synchronous, as in the source: a
mutation of either collection immediately invokes the handlers registered on
it.  The interpreter `run` executes one handler or collection operation
together with the whole cascade of notifications it triggers; its first
argument is a structural depth bound, chosen large enough by every entry
point (the guard flags cut each cascade after a constant number of steps,
and loops consume one unit of depth per element).

External collaborators (the Ext.data.Store base class, ol.Map, ol.Collection
and ol.Object of OpenLayers) are not part of the repository; where their
behaviour matters it is modelled from the specification, and each such
definition says so in its documentation.
-/

/-- Operation kind carried by the update notification of the store; `edit`
is Ext.data.Record.EDIT. -/
inductive Op where
  | edit
  | other
deriving DecidableEq

/-- A layer record of the store: a reference identity, the id of the backing
layer (what getOlLayer returns), the title field, and the Ext modified
marker for the title field. -/
structure Rec where
  rid : Nat
  layer : Nat
  title : String
  modifiedTitle : Bool
deriving DecidableEq

/-- Result of proxy.reader.read: a success flag, the produced records, and
the total count. -/
structure ReadResult where
  success : Bool
  records : List Rec
  total : Nat
deriving DecidableEq

/-- JavaScript runtime failure, such as calling a method that is not
defined. -/
inductive JsErr where
  | typeError
deriving DecidableEq

/-- The synchronized state: the store contents, the layer collection of the
bound map, the layer titles, the multiset of propertychange subscriptions
that point at onChangeLayer, the listener wiring established by bindMap, the
guard flags, the totalCount field, and observation counters (counts of
collection mutations, of onChangeLayer invocations and of update
notifications; no definition reads them, they only record what happened). -/
structure St where
  store : List Rec
  mapLayers : List Nat
  titles : List (Nat × String)
  listeners : List Nat
  colListening : Bool
  storeListening : Bool
  replaceListening : Bool
  mapBound : Bool
  adding : Bool
  removing : Bool
  addRecords : Bool
  totalCount : Nat
  storeMuts : Nat
  mapMuts : Nat
  chgCalls : Nat
  updEvents : Nat
deriving DecidableEq

/-- Lookup in the title association list (ol.Object.get of the title). -/
def lookupT : List (Nat × String) → Nat → Option String
  | [], _ => none
  | (k, v) :: ps, l => if k = l then some v else lookupT ps l

/-- Current title of a layer; absent keys read as the empty string. -/
def getTitle (s : St) (l : Nat) : String :=
  (lookupT s.titles l).getD ""

/-- Remove the first occurrence of a value from a list of layer ids; used
for detaching one propertychange subscription (ol un). -/
def erase1 : List Nat → Nat → List Nat
  | [], _ => []
  | x :: xs, l => if x = l then xs else x :: erase1 xs l

/-- Number of occurrences of a layer id in the subscription multiset. -/
def countN : List Nat → Nat → Nat
  | [], _ => 0
  | x :: xs, l => (if x = l then 1 else 0) + countN xs l

/-- Remove the first occurrence of a record from the store contents
(Ext remove by reference). -/
def eraseRec : List Rec → Rec → List Rec
  | [], _ => []
  | x :: xs, r => if x = r then xs else x :: eraseRec xs r

/-- Index of the first occurrence of a layer id (Array.prototype.indexOf on
the array of the collection); the length when absent. -/
def idxOf (l : Nat) : List Nat → Nat
  | [] => 0
  | x :: xs => if x = l then 0 else idxOf l xs + 1

/-- Insertion of a layer at an index (ol.Collection.insertAt; past the end
it appends, like splice). -/
def insAt (i : Nat) (l : Nat) (xs : List Nat) : List Nat :=
  xs.take i ++ l :: xs.drop i

/-- Insertion of a batch of records at an index (Ext insert). -/
def insRecs (i : Nat) (rs : List Rec) (xs : List Rec) : List Rec :=
  xs.take i ++ rs ++ xs.drop i

/-- Split a list into its leading part and its last element, when nonempty;
the shape in which the pop loop of ol.Collection.clear consumes it. -/
def splitLast : List Nat → Option (List Nat × Nat)
  | [] => none
  | [x] => some ([], x)
  | x :: y :: xs =>
      match splitLast (y :: xs) with
      | none => some ([], x)
      | some (ys, l) => some (x :: ys, l)

/-- The first record of the store whose backing layer is the given layer,
with its index (findBy with rec.getOlLayer() === layer, plus getAt). -/
def findRec : List Rec → Nat → Nat → Option (Nat × Rec)
  | [], _, _ => none
  | r :: rs, l, i => if r.layer = l then some (i, r) else findRec rs l (i + 1)

/-- Attach one propertychange subscription (layer.on with onChangeLayer). -/
def attach (s : St) (l : Nat) : St :=
  { s with listeners := l :: s.listeners }

/-- Detach one propertychange subscription (layer.un with onChangeLayer). -/
def detach (s : St) (l : Nat) : St :=
  { s with listeners := erase1 s.listeners l }

/-- Detach one propertychange subscription per layer of the map: the forEach
loops of onLoad and onClear. -/
def detachAllMap (s : St) : St :=
  { s with listeners := s.mapLayers.foldl (fun acc l => erase1 acc l) s.listeners }

/-- Attach one propertychange subscription per given layer, in order: the
attach loop of onLoad over the freshly read records. -/
def attachList (s : St) (ls : List Nat) : St :=
  { s with listeners := ls.foldl (fun acc l => l :: acc) s.listeners }

/-- Modelled from the spec: Ext.data.Model.set as used by onChangeLayer for
the direct title write of the bound record (§4.3, the cheap path that does
not re-trigger a model update notification; the store-level update
notification is emitted only for edits arriving from outside, §6).  Updates
the field and the modified marker when the value changes; emits nothing. -/
def recSetTitle (s : St) (i : Nat) (v : String) : St :=
  match s.store[i]? with
  | none => s
  | some r =>
      if r.title = v then s
      else { s with
              store := s.store.set i { r with title := v, modifiedTitle := true },
              storeMuts := s.storeMuts + 1 }

/-- One pending handler invocation or collection operation, together with
its arguments; `run` below gives each its meaning.  The fire constructors
are the notification dispatch of the respective collection: they invoke the
registered handler when the corresponding listener wiring is in place. -/
inductive Call where
  | mapPush (l : Nat)
  | mapInsertAt (i l : Nat)
  | mapRemove (l : Nat)
  | mapClearLoop (n : Nat)
  | mapExtend (ls : List Nat)
  | fireMapAdd (l : Nat)
  | fireMapRemove (l : Nat)
  | storeInsert (i : Nat) (recs : List Rec)
  | storeRemove (r : Rec)
  | fireStoreAdd (recs : List Rec) (i : Nat)
  | fireStoreRemove (r : Rec)
  | fireStoreUpdate (r : Rec) (op : Op)
  | fireStoreLoad (recs : List Rec) (b : Bool)
  | fireTitleLoop (l : Nat) (n : Nat)
  | layerSetTitle (l : Nat) (v : String)
  | onAddLayer (l : Nat)
  | onRemoveLayer (l : Nat)
  | onAdd (recs : List Rec) (i : Nat)
  | onAddLoop (recs : List Rec) (i : Nat)
  | onRemove (r : Rec)
  | onLoad (recs : List Rec) (b : Bool)
  | onClear
  | onStoreUpdate (r : Rec) (op : Op)
  | onChangeLayer (key : String) (l : Nat)
  | onReplace (r : Rec)

/-- Synchronous execution of one call and of every notification it triggers,
up to the given depth.  `rd` is proxy.reader.read.  The handlers follow
LayerStore.js line by line: onChangeLayer 115-128, onAddLayer 136-147,
onRemoveLayer 155-167, onLoad 177-204, onClear 211-219, onAdd 229-245,
onRemove 254-271, onStoreUpdate 280-290, removeMapLayer 298-300 (inlined as
mapRemove of the layer of the record), onReplace 310-312.  The collection
operations follow the collaborator contracts of the spec (§6): push and
insertAt of ol.Collection notify add once; remove notifies remove when the
element was present; clear pops the last element, notifying remove each
time, until empty (the loop is measured by the length snapshot taken at
entry); extend pushes each element in order; the Ext store notifies add on
insert, remove on remove, and the overridden loadRawData explicitly fires
load; ol.Object.set stores the value and notifies each propertychange
subscription of that layer once. -/
def run (rd : Nat → ReadResult) : Nat → Call → St → St
  | 0, _, s => s
  | f + 1, c, s =>
    match c with
    | .mapPush l =>
        run rd f (.fireMapAdd l)
          { s with mapLayers := s.mapLayers ++ [l], mapMuts := s.mapMuts + 1 }
    | .mapInsertAt i l =>
        run rd f (.fireMapAdd l)
          { s with mapLayers := insAt i l s.mapLayers, mapMuts := s.mapMuts + 1 }
    | .mapRemove l =>
        if l ∈ s.mapLayers then
          run rd f (.fireMapRemove l)
            { s with mapLayers := erase1 s.mapLayers l, mapMuts := s.mapMuts + 1 }
        else s
    | .mapClearLoop n =>
        match n with
        | 0 => s
        | n + 1 =>
            match splitLast s.mapLayers with
            | none => s
            | some (ys, l) =>
                run rd f (.mapClearLoop n)
                  (run rd f (.fireMapRemove l)
                    { s with mapLayers := ys, mapMuts := s.mapMuts + 1 })
    | .mapExtend ls =>
        match ls with
        | [] => s
        | l :: ls => run rd f (.mapExtend ls) (run rd f (.mapPush l) s)
    | .fireMapAdd l => if s.colListening then run rd f (.onAddLayer l) s else s
    | .fireMapRemove l => if s.colListening then run rd f (.onRemoveLayer l) s else s
    | .storeInsert i recs =>
        run rd f (.fireStoreAdd recs i)
          { s with store := insRecs i recs s.store, storeMuts := s.storeMuts + 1 }
    | .storeRemove r =>
        if r ∈ s.store then
          run rd f (.fireStoreRemove r)
            { s with store := eraseRec s.store r, storeMuts := s.storeMuts + 1 }
        else s
    | .fireStoreAdd recs i => if s.storeListening then run rd f (.onAdd recs i) s else s
    | .fireStoreRemove r => if s.storeListening then run rd f (.onRemove r) s else s
    | .fireStoreUpdate r op => if s.storeListening then run rd f (.onStoreUpdate r op) s else s
    | .fireStoreLoad recs b => if s.storeListening then run rd f (.onLoad recs b) s else s
    | .fireTitleLoop l n =>
        match n with
        | 0 => s
        | n + 1 => run rd f (.fireTitleLoop l n) (run rd f (.onChangeLayer "title" l) s)
    | .layerSetTitle l v =>
        let s1 := if getTitle s l = v then s
          else { s with titles := (l, v) :: s.titles, mapMuts := s.mapMuts + 1 }
        run rd f (.fireTitleLoop l (countN s1.listeners l)) s1
    | .onAddLayer l =>
        let i := idxOf l s.mapLayers
        let s1 := attach s l
        if s1.adding = false then
          let s2 := { s1 with adding := true }
          let res := rd l
          let s3 := run rd f (.storeInsert i res.records) s2
          { s3 with adding := false }
        else s1
    | .onRemoveLayer l =>
        if s.removing = false then
          match findRec s.store l 0 with
          | some (_, r) =>
              let s1 := { s with removing := true }
              let s2 := detach s1 l
              let s3 := run rd f (.storeRemove r) s2
              { s3 with removing := false }
          | none => s
        else s
    | .onAdd recs i =>
        if s.adding = false then
          let s1 := { s with adding := true }
          let s2 := run rd f (.onAddLoop recs i) s1
          { s2 with adding := false }
        else s
    | .onAddLoop recs i =>
        match recs with
        | [] => s
        | r :: rs =>
            let s1 := attach s r.layer
            let s2 := if i = 0 then run rd f (.mapPush r.layer) s1
              else run rd f (.mapInsertAt i r.layer) s1
            run rd f (.onAddLoop rs i) s2
    | .onRemove r =>
        if s.removing = false then
          let s1 := detach s r.layer
          if r.layer ∈ s1.mapLayers then
            let s2 := { s1 with removing := true }
            let s3 := run rd f (.mapRemove r.layer) s2
            { s3 with removing := false }
          else s1
        else s
    | .onLoad recs b =>
        if b then
          let s1 :=
            if s.addRecords = false then
              let sa := { s with removing := true }
              let sb := detachAllMap sa
              let sc := run rd f (.mapClearLoop sb.mapLayers.length) sb
              { sc with removing := false }
            else s
          let s2 :=
            if 0 < recs.length then
              let ls := recs.map (fun r => r.layer)
              let sa := attachList s1 ls
              let sb := { sa with adding := true }
              let sc := run rd f (.mapExtend ls) sb
              { sc with adding := false }
            else s1
          { s2 with addRecords := false }
        else { s with addRecords := false }
    | .onClear =>
        let sa := { s with removing := true }
        let sb := detachAllMap sa
        let sc := run rd f (.mapClearLoop sb.mapLayers.length) sb
        { sc with removing := false }
    | .onStoreUpdate r op =>
        if op = Op.edit then
          if r.modifiedTitle then
            if r.title = getTitle s r.layer then s
            else run rd f (.layerSetTitle r.layer r.title) s
          else s
        else s
    | .onChangeLayer key l =>
        let s0 := { s with chgCalls := s.chgCalls + 1 }
        match findRec s0.store l 0 with
        | some (i, r) =>
            if key = "title" then recSetTitle s0 i (getTitle s0 l)
            else run rd f (.fireStoreUpdate r Op.edit) { s0 with updEvents := s0.updEvents + 1 }
        | none => s0
    | .onReplace r => run rd f (.mapRemove r.layer) s

/-- Constant part of the depth bound: the longest notification cascade that
does not traverse a loop has fewer than this many frames. -/
def DEPTH : Nat := 24

/-- Handler for the load notification of the store (LayerStore.js 177-204),
with the cascade it triggers. -/
def onLoad (rd : Nat → ReadResult) (s : St) (recs : List Rec) (b : Bool) : St :=
  run rd (s.mapLayers.length + recs.length + DEPTH) (.onLoad recs b) s

/-- Handler for the clear notification of the store (LayerStore.js
211-219). -/
def onClear (rd : Nat → ReadResult) (s : St) : St :=
  run rd (s.mapLayers.length + DEPTH) (.onClear) s

/-- Handler for the add notification of the store (LayerStore.js 229-245). -/
def onAdd (rd : Nat → ReadResult) (s : St) (recs : List Rec) (i : Nat) : St :=
  run rd (recs.length + DEPTH) (.onAdd recs i) s

/-- Handler for the remove notification of the store (LayerStore.js
254-271). -/
def onRemove (rd : Nat → ReadResult) (s : St) (r : Rec) : St :=
  run rd DEPTH (.onRemove r) s

/-- Handler for the propertychange notification of a layer (LayerStore.js
115-128). -/
def onChangeLayer (rd : Nat → ReadResult) (s : St) (key : String) (l : Nat) : St :=
  run rd (countN s.listeners l + DEPTH) (.onChangeLayer key l) s

/-- Handler for the add notification of the layer collection (LayerStore.js
136-147). -/
def onAddLayer (rd : Nat → ReadResult) (s : St) (l : Nat) : St :=
  run rd ((rd l).records.length + DEPTH) (.onAddLayer l) s

/-- Handler for the remove notification of the layer collection
(LayerStore.js 155-167). -/
def onRemoveLayer (rd : Nat → ReadResult) (s : St) (l : Nat) : St :=
  run rd DEPTH (.onRemoveLayer l) s

/-- Handler for the update notification of the store (LayerStore.js
280-290). -/
def onStoreUpdate (rd : Nat → ReadResult) (s : St) (r : Rec) (op : Op) : St :=
  run rd (countN s.listeners r.layer + DEPTH) (.onStoreUpdate r op) s

/-- Handler for the replace notification of the data collection of the store
(LayerStore.js 310-312); removeMapLayer 298-300 is the contained map
remove. -/
def onReplace (rd : Nat → ReadResult) (s : St) (r : Rec) : St :=
  run rd DEPTH (.onReplace r) s

/-- The record of the store bound to a layer (LayerStore.js 320-327). -/
def getByLayer (s : St) (l : Nat) : Option Rec :=
  (findRec s.store l 0).map (fun p => p.2)

/-- An external actor pushes a layer onto the collection of the map. -/
def extMapAddLayer (rd : Nat → ReadResult) (s : St) (l : Nat) : St :=
  run rd ((rd l).records.length + DEPTH) (.mapPush l) s

/-- An external actor removes a layer from the collection of the map. -/
def extMapRemoveLayer (rd : Nat → ReadResult) (s : St) (l : Nat) : St :=
  run rd DEPTH (.mapRemove l) s

/-- An external actor sets the title of a layer (ol.Object.set, which
notifies every propertychange subscription of the layer). -/
def extLayerSetTitle (rd : Nat → ReadResult) (s : St) (l : Nat) (v : String) : St :=
  run rd (countN s.listeners l + DEPTH) (.layerSetTitle l v) s

/-- An external actor inserts records into the store at an index. -/
def extStoreInsert (rd : Nat → ReadResult) (s : St) (i : Nat) (recs : List Rec) : St :=
  run rd (recs.length + DEPTH) (.storeInsert i recs) s

/-- An external actor removes a record from the store. -/
def extStoreRemove (rd : Nat → ReadResult) (s : St) (r : Rec) : St :=
  run rd DEPTH (.storeRemove r) s

/-- Modelled from the spec: an external actor edits the title field of the
record at an index through Ext.data.Model.set; the field and its modified
marker update and the model collection emits update(record, EDIT) (§6,
§4.4). -/
def extRecordEdit (rd : Nat → ReadResult) (s : St) (i : Nat) (v : String) : St :=
  match s.store[i]? with
  | none => s
  | some r =>
      if r.title = v then s
      else
        let r2 := { r with title := v, modifiedTitle := true }
        let s1 := { s with
                     store := s.store.set i r2,
                     storeMuts := s.storeMuts + 1,
                     updEvents := s.updEvents + 1 }
        run rd (countN s1.listeners r2.layer + DEPTH) (.fireStoreUpdate r2 Op.edit) s1

/-- Modelled from the spec: an external actor swaps the record stored at a
key of the data collection, which then emits replace(key, oldRecord) to the
subscribed onReplace (§6); the swap itself happened before the notification,
so the state already holds the new contents. -/
def extReplace (rd : Nat → ReadResult) (s : St) (oldRec : Rec) : St :=
  if s.replaceListening then run rd DEPTH (.onReplace oldRec) s else s

/-- Overridden loadRecords (LayerStore.js 347-352): set the addRecords flag
from the options, then the base behaviour (modelled from the spec / the Ext
base class: replace the data, or append when the addRecords option is given,
emitting none of the notifications the store handlers subscribe to). -/
def loadRecords (s : St) (recs : List Rec) (addOpt : Bool) : St :=
  let s1 := if addOpt then { s with addRecords := true } else s
  { s1 with
     store := if addOpt then s1.store ++ recs else recs,
     storeMuts := s1.storeMuts + 1 }

/-- Overridden loadRawData (LayerStore.js 395-405): read the data, and on
success set totalCount, load the records and fire the load notification; on
failure do nothing. -/
def loadRawData (rd : Nat → ReadResult) (s : St) (d : Nat) (append : Bool) : St :=
  let res := rd d
  if res.success then
    let s1 := loadRecords { s with totalCount := res.total } res.records append
    run rd (s1.mapLayers.length + res.records.length + DEPTH) (.fireStoreLoad res.records true) s1
  else s

/-- bindMap (LayerStore.js 51-85): remember the map on first bind, import
every existing layer through loadRawData with append semantics, attach a
propertychange subscription per layer, then wire the collection, store and
data listeners.  The iteration is over the snapshot of the layer list at
entry; before the wiring no handler receives the fired load events unless a
previous bind left the store listening. -/
def bindMap (rd : Nat → ReadResult) (s : St) : St :=
  let s0 := if s.mapBound = false then { s with mapBound := true } else s
  let s1 := s0.mapLayers.foldl (fun st l => loadRawData rd st l true) s0
  let s2 := attachList s1 s1.mapLayers
  { s2 with colListening := true, storeListening := true, replaceListening := true }

/-- unbindMap (LayerStore.js 90-106): under the map check, unwire the add
and remove listeners of the layer collection; unconditionally unwire the
load, clear, add, remove and update listeners of the store and the replace
listener of the data collection; finally null the map.  The propertychange
subscriptions attached to the individual layers are not touched. -/
def unbindMap (s : St) : St :=
  let s1 := if s.mapBound then { s with colListening := false } else s
  let s2 := { s1 with storeListening := false, replaceListening := false }
  { s2 with mapBound := false }

/-- Access to getLayers of the stored map: fails exactly when no map is
stored (the member access on null). -/
def getLayersE (s : St) : Except JsErr (List Nat) :=
  if s.mapBound then .ok s.mapLayers else .error .typeError

/-- unbindMap with the JavaScript member accesses made explicit: the only
access that could fail is reached only under the map check, so the function
always succeeds. -/
def unbindMapE (s : St) : Except JsErr St :=
  if s.mapBound then
    match getLayersE s with
    | .error e => .error e
    | .ok _ => .ok (unbindMap s)
  else .ok (unbindMap s)

/-- Method names defined on the store: those of LayerStore.js together with
the collaborator surface the spec requires of the model collection (§6);
none is named unbind (the public surface of the core is bindMap, unbindMap
and getByLayer, §6). -/
def storeMethods : List String :=
  ["constructor", "bindMap", "unbindMap", "onChangeLayer", "onAddLayer",
   "onRemoveLayer", "onLoad", "onClear", "onAdd", "onRemove",
   "onStoreUpdate", "removeMapLayer", "onReplace", "getByLayer", "destroy",
   "loadRecords", "loadRawData", "insert", "remove", "findBy", "getAt",
   "loadData", "on", "un", "fireEvent"]

/-- destroy (LayerStore.js 334-337): look up and call this.unbind(), then
callParent.  No method of that name exists on the store or its modelled
base surface, so the call fails before anything is unbound or released. -/
def destroy (s : St) : Except JsErr St :=
  if "unbind" ∈ storeMethods then .ok (unbindMap s) else .error .typeError

/-- onAddLayer entered with a reader that may fail by throwing
(LayerStore.js 136-147).  Mutations made before the failure persist and the
Boolean reports whether the invocation threw; on a successful read the rest
of the handler proceeds as in `run`, the read result standing in for the
reader. -/
def onAddLayerE (rdE : Nat → Except Unit ReadResult) (s : St) (l : Nat) : St × Bool :=
  let i := idxOf l s.mapLayers
  let s1 := attach s l
  if s1.adding = false then
    let s2 := { s1 with adding := true }
    match rdE l with
    | .error _ => (s2, true)
    | .ok res =>
        let s3 := run (fun _ => res) (res.records.length + DEPTH) (.storeInsert i res.records) s2
        ({ s3 with adding := false }, false)
  else (s1, false)

/-! Step equations of the interpreter, one per call shape, all definitional. -/

theorem run_zero (rd : Nat → ReadResult) (c : Call) (s : St) : run rd 0 c s = s := rfl

theorem run_mapPush (rd : Nat → ReadResult) (f : Nat) (s : St) (l : Nat) :
    run rd (f + 1) (.mapPush l) s =
      run rd f (.fireMapAdd l)
        { s with mapLayers := s.mapLayers ++ [l], mapMuts := s.mapMuts + 1 } := rfl

theorem run_mapInsertAt (rd : Nat → ReadResult) (f : Nat) (s : St) (i l : Nat) :
    run rd (f + 1) (.mapInsertAt i l) s =
      run rd f (.fireMapAdd l)
        { s with mapLayers := insAt i l s.mapLayers, mapMuts := s.mapMuts + 1 } := rfl

theorem run_mapRemove (rd : Nat → ReadResult) (f : Nat) (s : St) (l : Nat) :
    run rd (f + 1) (.mapRemove l) s =
      if l ∈ s.mapLayers then
        run rd f (.fireMapRemove l)
          { s with mapLayers := erase1 s.mapLayers l, mapMuts := s.mapMuts + 1 }
      else s := rfl

theorem run_mapClearLoop_zero (rd : Nat → ReadResult) (f : Nat) (s : St) :
    run rd (f + 1) (.mapClearLoop 0) s = s := rfl

theorem run_mapClearLoop_succ (rd : Nat → ReadResult) (f n : Nat) (s : St) :
    run rd (f + 1) (.mapClearLoop (n + 1)) s =
      match splitLast s.mapLayers with
      | none => s
      | some (ys, l) =>
          run rd f (.mapClearLoop n)
            (run rd f (.fireMapRemove l)
              { s with mapLayers := ys, mapMuts := s.mapMuts + 1 }) := rfl

theorem run_mapExtend_nil (rd : Nat → ReadResult) (f : Nat) (s : St) :
    run rd (f + 1) (.mapExtend []) s = s := rfl

theorem run_mapExtend_cons (rd : Nat → ReadResult) (f : Nat) (s : St) (l : Nat) (ls : List Nat) :
    run rd (f + 1) (.mapExtend (l :: ls)) s =
      run rd f (.mapExtend ls) (run rd f (.mapPush l) s) := rfl

theorem run_fireMapAdd (rd : Nat → ReadResult) (f : Nat) (s : St) (l : Nat) :
    run rd (f + 1) (.fireMapAdd l) s =
      if s.colListening then run rd f (.onAddLayer l) s else s := rfl

theorem run_fireMapRemove (rd : Nat → ReadResult) (f : Nat) (s : St) (l : Nat) :
    run rd (f + 1) (.fireMapRemove l) s =
      if s.colListening then run rd f (.onRemoveLayer l) s else s := rfl

theorem run_storeInsert (rd : Nat → ReadResult) (f : Nat) (s : St) (i : Nat) (recs : List Rec) :
    run rd (f + 1) (.storeInsert i recs) s =
      run rd f (.fireStoreAdd recs i)
        { s with store := insRecs i recs s.store, storeMuts := s.storeMuts + 1 } := rfl

theorem run_storeRemove (rd : Nat → ReadResult) (f : Nat) (s : St) (r : Rec) :
    run rd (f + 1) (.storeRemove r) s =
      if r ∈ s.store then
        run rd f (.fireStoreRemove r)
          { s with store := eraseRec s.store r, storeMuts := s.storeMuts + 1 }
      else s := rfl

theorem run_fireStoreAdd (rd : Nat → ReadResult) (f : Nat) (s : St) (recs : List Rec) (i : Nat) :
    run rd (f + 1) (.fireStoreAdd recs i) s =
      if s.storeListening then run rd f (.onAdd recs i) s else s := rfl

theorem run_fireStoreRemove (rd : Nat → ReadResult) (f : Nat) (s : St) (r : Rec) :
    run rd (f + 1) (.fireStoreRemove r) s =
      if s.storeListening then run rd f (.onRemove r) s else s := rfl

theorem run_fireStoreUpdate (rd : Nat → ReadResult) (f : Nat) (s : St) (r : Rec) (op : Op) :
    run rd (f + 1) (.fireStoreUpdate r op) s =
      if s.storeListening then run rd f (.onStoreUpdate r op) s else s := rfl

theorem run_fireStoreLoad (rd : Nat → ReadResult) (f : Nat) (s : St) (recs : List Rec) (b : Bool) :
    run rd (f + 1) (.fireStoreLoad recs b) s =
      if s.storeListening then run rd f (.onLoad recs b) s else s := rfl

theorem run_fireTitleLoop_zero (rd : Nat → ReadResult) (f : Nat) (s : St) (l : Nat) :
    run rd (f + 1) (.fireTitleLoop l 0) s = s := rfl

theorem run_fireTitleLoop_succ (rd : Nat → ReadResult) (f : Nat) (s : St) (l n : Nat) :
    run rd (f + 1) (.fireTitleLoop l (n + 1)) s =
      run rd f (.fireTitleLoop l n) (run rd f (.onChangeLayer "title" l) s) := rfl

theorem run_layerSetTitle (rd : Nat → ReadResult) (f : Nat) (s : St) (l : Nat) (v : String) :
    run rd (f + 1) (.layerSetTitle l v) s =
      (if getTitle s l = v then
          run rd f (.fireTitleLoop l (countN s.listeners l)) s
        else
          run rd f (.fireTitleLoop l (countN s.listeners l))
            { s with titles := (l, v) :: s.titles, mapMuts := s.mapMuts + 1 }) := by
  by_cases h : getTitle s l = v <;> simp [run, h]

theorem run_onAddLayer (rd : Nat → ReadResult) (f : Nat) (s : St) (l : Nat) :
    run rd (f + 1) (.onAddLayer l) s =
      (if (attach s l).adding = false then
          { run rd f (.storeInsert (idxOf l s.mapLayers) (rd l).records)
              { attach s l with adding := true } with adding := false }
        else attach s l) := rfl

theorem run_onRemoveLayer (rd : Nat → ReadResult) (f : Nat) (s : St) (l : Nat) :
    run rd (f + 1) (.onRemoveLayer l) s =
      (if s.removing = false then
          match findRec s.store l 0 with
          | some (_, r) =>
              { run rd f (.storeRemove r) (detach { s with removing := true } l) with
                  removing := false }
          | none => s
        else s) := rfl

theorem run_onAdd (rd : Nat → ReadResult) (f : Nat) (s : St) (recs : List Rec) (i : Nat) :
    run rd (f + 1) (.onAdd recs i) s =
      (if s.adding = false then
          { run rd f (.onAddLoop recs i) { s with adding := true } with adding := false }
        else s) := rfl

theorem run_onAddLoop_nil (rd : Nat → ReadResult) (f : Nat) (s : St) (i : Nat) :
    run rd (f + 1) (.onAddLoop [] i) s = s := rfl

theorem run_onAddLoop_cons (rd : Nat → ReadResult) (f : Nat) (s : St) (r : Rec)
    (rs : List Rec) (i : Nat) :
    run rd (f + 1) (.onAddLoop (r :: rs) i) s =
      run rd f (.onAddLoop rs i)
        (if i = 0 then run rd f (.mapPush r.layer) (attach s r.layer)
          else run rd f (.mapInsertAt i r.layer) (attach s r.layer)) := by
  by_cases h : i = 0 <;> simp [run, h]

theorem run_onRemove (rd : Nat → ReadResult) (f : Nat) (s : St) (r : Rec) :
    run rd (f + 1) (.onRemove r) s =
      (if s.removing = false then
          if r.layer ∈ (detach s r.layer).mapLayers then
            { run rd f (.mapRemove r.layer) { detach s r.layer with removing := true } with
                removing := false }
          else detach s r.layer
        else s) := rfl

theorem run_onLoad_true (rd : Nat → ReadResult) (f : Nat) (s : St) (recs : List Rec) :
    run rd (f + 1) (.onLoad recs true) s =
      (let s1 :=
        if s.addRecords = false then
          { run rd f (.mapClearLoop (detachAllMap { s with removing := true }).mapLayers.length)
              (detachAllMap { s with removing := true }) with removing := false }
        else s
      let s2 :=
        if 0 < recs.length then
          { run rd f (.mapExtend (recs.map (fun r => r.layer)))
              { attachList s1 (recs.map (fun r => r.layer)) with adding := true } with
              adding := false }
        else s1
      { s2 with addRecords := false }) := rfl

theorem run_onLoad_false (rd : Nat → ReadResult) (f : Nat) (s : St) (recs : List Rec) :
    run rd (f + 1) (.onLoad recs false) s = { s with addRecords := false } := rfl

theorem run_onClear (rd : Nat → ReadResult) (f : Nat) (s : St) :
    run rd (f + 1) (.onClear) s =
      { run rd f (.mapClearLoop (detachAllMap { s with removing := true }).mapLayers.length)
          (detachAllMap { s with removing := true }) with removing := false } := rfl

theorem run_onStoreUpdate (rd : Nat → ReadResult) (f : Nat) (s : St) (r : Rec) (op : Op) :
    run rd (f + 1) (.onStoreUpdate r op) s =
      (if op = Op.edit then
          if r.modifiedTitle then
            if r.title = getTitle s r.layer then s
            else run rd f (.layerSetTitle r.layer r.title) s
          else s
        else s) := rfl

theorem run_onChangeLayer (rd : Nat → ReadResult) (f : Nat) (s : St) (key : String) (l : Nat) :
    run rd (f + 1) (.onChangeLayer key l) s =
      (match findRec s.store l 0 with
        | some (i, r) =>
            if key = "title" then
              recSetTitle { s with chgCalls := s.chgCalls + 1 } i (getTitle s l)
            else
              run rd f (.fireStoreUpdate r Op.edit)
                { s with chgCalls := s.chgCalls + 1, updEvents := s.updEvents + 1 }
        | none => { s with chgCalls := s.chgCalls + 1 }) := rfl

theorem run_onReplace (rd : Nat → ReadResult) (f : Nat) (s : St) (r : Rec) :
    run rd (f + 1) (.onReplace r) s = run rd f (.mapRemove r.layer) s := rfl

/-! Guard cuts: a handler invoked while its guard flag is set does nothing
(beyond the unconditional subscription attach of onAddLayer), at any
depth. -/

theorem onAdd_guarded (rd : Nat → ReadResult) (f : Nat) (s : St) (recs : List Rec) (i : Nat)
    (h : s.adding = true) : run rd f (.onAdd recs i) s = s := by
  cases f with
  | zero => rfl
  | succ f => rw [run_onAdd]; simp [h]

theorem onAddLayer_guarded (rd : Nat → ReadResult) (f : Nat) (s : St) (l : Nat)
    (h : s.adding = true) : run rd (f + 1) (.onAddLayer l) s = attach s l := by
  rw [run_onAddLayer]
  have : (attach s l).adding = true := h
  simp [this]

theorem onRemove_guarded (rd : Nat → ReadResult) (f : Nat) (s : St) (r : Rec)
    (h : s.removing = true) : run rd f (.onRemove r) s = s := by
  cases f with
  | zero => rfl
  | succ f => rw [run_onRemove]; simp [h]

theorem onRemoveLayer_guarded (rd : Nat → ReadResult) (f : Nat) (s : St) (l : Nat)
    (h : s.removing = true) : run rd f (.onRemoveLayer l) s = s := by
  cases f with
  | zero => rfl
  | succ f => rw [run_onRemoveLayer]; simp [h]

theorem fireStoreAdd_guarded (rd : Nat → ReadResult) (f : Nat) (s : St) (recs : List Rec)
    (i : Nat) (h : s.adding = true) : run rd f (.fireStoreAdd recs i) s = s := by
  cases f with
  | zero => rfl
  | succ f =>
      rw [run_fireStoreAdd]
      by_cases hl : s.storeListening <;> simp [hl, onAdd_guarded rd f s recs i h]

theorem fireStoreRemove_guarded (rd : Nat → ReadResult) (f : Nat) (s : St) (r : Rec)
    (h : s.removing = true) : run rd f (.fireStoreRemove r) s = s := by
  cases f with
  | zero => rfl
  | succ f =>
      rw [run_fireStoreRemove]
      by_cases hl : s.storeListening <;> simp [hl, onRemove_guarded rd f s r h]

theorem fireMapRemove_guarded (rd : Nat → ReadResult) (f : Nat) (s : St) (l : Nat)
    (h : s.removing = true) : run rd f (.fireMapRemove l) s = s := by
  cases f with
  | zero => rfl
  | succ f =>
      rw [run_fireMapRemove]
      by_cases hl : s.colListening <;> simp [hl, onRemoveLayer_guarded rd f s l h]

theorem mapPush_adding (rd : Nat → ReadResult) (f : Nat) (s : St) (l : Nat)
    (ha : s.adding = true) (hc : s.colListening = true) :
    run rd (f + 3) (.mapPush l) s =
      attach { s with mapLayers := s.mapLayers ++ [l], mapMuts := s.mapMuts + 1 } l := by
  rw [run_mapPush, run_fireMapAdd]
  simp only [hc, if_true]
  exact onAddLayer_guarded rd f _ l ha

/-! Facts about the list helpers. -/

theorem splitLast_concat : ∀ (xs : List Nat) (l : Nat), splitLast (xs.concat l) = some (xs, l) := by
  intro xs
  induction xs with
  | nil => intro l; rfl
  | cons x xs ih =>
      intro l
      cases xs with
      | nil => rfl
      | cons y ys =>
          have ih2 := ih l
          rw [List.concat_cons] at ih2
          rw [List.concat_cons, List.concat_cons]
          simp only [splitLast, ih2]

theorem findRec_sound : ∀ (xs : List Rec) (l k i : Nat) (r : Rec),
    findRec xs l k = some (i, r) → r ∈ xs ∧ r.layer = l ∧ k ≤ i ∧ xs[i - k]? = some r := by
  intro xs
  induction xs with
  | nil => intro l k i r h; simp [findRec] at h
  | cons x xs ih =>
      intro l k i r h
      rw [findRec] at h
      by_cases hx : x.layer = l
      · simp only [hx, if_true, Option.some.injEq, Prod.mk.injEq] at h
        obtain ⟨hi, hr⟩ := h
        subst hi; subst hr
        simp [hx]
      · rw [if_neg hx] at h
        obtain ⟨hm, hl, hk, hg⟩ := ih l (k + 1) i r h
        refine ⟨List.mem_cons_of_mem _ hm, hl, by omega, ?_⟩
        have hik : i - k = (i - (k + 1)) + 1 := by omega
        rw [hik]
        simpa using hg

theorem findRec_notFound : ∀ (xs : List Rec) (l k : Nat),
    findRec xs l k = none → ∀ r ∈ xs, r.layer ≠ l := by
  intro xs
  induction xs with
  | nil => intro l k _ r hr; simp at hr
  | cons x xs ih =>
      intro l k h r hr
      rw [findRec] at h
      by_cases hx : x.layer = l
      · simp [hx] at h
      · rw [if_neg hx] at h
        rcases List.mem_cons.mp hr with hh | ht
        · subst hh; exact hx
        · exact ih l (k + 1) h r ht

/-! Closed forms of the two collection loops when the corresponding guard is
set: the pop loop of clear just empties the collection, and extend appends
each pushed layer while onAddLayer only attaches a subscription per
element. -/

theorem mapClearLoop_removing (rd : Nat → ReadResult) :
    ∀ (n f : Nat) (s : St), s.removing = true → s.mapLayers.length = n →
      run rd (f + n + 1) (.mapClearLoop n) s =
        { s with mapLayers := [], mapMuts := s.mapMuts + n } := by
  intro n
  induction n with
  | zero =>
      intro f s hrm hlen
      have hnil : s.mapLayers = [] := List.length_eq_zero.mp hlen
      rw [run_mapClearLoop_zero]
      cases s
      simp only at hnil
      simp [hnil]
  | succ n ih =>
      intro f s hrm hlen
      rcases List.eq_nil_or_concat s.mapLayers with hnil | ⟨ys, l, hys⟩
      · rw [hnil] at hlen; simp at hlen
      · have hfuel : f + (n + 1) + 1 = (f + n + 1) + 1 := by omega
        rw [hfuel, run_mapClearLoop_succ, hys, splitLast_concat]
        dsimp only
        have hrm2 : ({ s with mapLayers := ys, mapMuts := s.mapMuts + 1 } : St).removing = true := hrm
        rw [fireMapRemove_guarded rd (f + n + 1) _ l hrm2]
        have hys_len : ys.length = n := by
          rw [hys] at hlen
          simp [List.length_concat] at hlen
          omega
        rw [ih f _ hrm2 (by simpa using hys_len)]
        cases s
        simp [St.mk.injEq]
        all_goals omega

theorem mapExtend_adding (rd : Nat → ReadResult) :
    ∀ (ls : List Nat) (f : Nat) (s : St), s.adding = true → s.colListening = true →
      run rd (f + ls.length + 3) (.mapExtend ls) s =
        { s with mapLayers := s.mapLayers ++ ls,
                 listeners := ls.reverse ++ s.listeners,
                 mapMuts := s.mapMuts + ls.length } := by
  intro ls
  induction ls with
  | nil =>
      intro f s ha hc
      rw [show f + List.length ([] : List Nat) + 3 = (f + 2) + 1 by
        simp only [List.length_nil]; try omega]
      rw [run_mapExtend_nil]
      cases s
      simp
  | cons l ls ih =>
      intro f s ha hc
      rw [show f + (l :: ls).length + 3 = (f + ls.length + 3) + 1 by
        simp only [List.length_cons]; try omega]
      rw [run_mapExtend_cons, mapPush_adding rd (f + ls.length) s l ha hc]
      rw [ih f _ (by simpa [attach] using ha) (by simpa [attach] using hc)]
      cases s
      simp [attach, St.mk.injEq]
      all_goals omega

/-! Characterizations of the handlers in a live, unguarded state: each
lemma executes one handler together with its full cascade. -/

theorem mapInsertAt_adding (rd : Nat → ReadResult) (f : Nat) (s : St) (i l : Nat)
    (ha : s.adding = true) (hc : s.colListening = true) :
    run rd (f + 3) (.mapInsertAt i l) s =
      attach { s with mapLayers := insAt i l s.mapLayers, mapMuts := s.mapMuts + 1 } l := by
  rw [show f + 3 = (f + 2) + 1 from rfl, run_mapInsertAt, run_fireMapAdd]
  simp only [hc, if_true]
  exact onAddLayer_guarded rd f _ l ha

theorem onAddLayer_char (rd : Nat → ReadResult) (f : Nat) (s : St) (l : Nat)
    (ha : s.adding = false) :
    run rd (f + 2) (.onAddLayer l) s =
      { s with listeners := l :: s.listeners,
               store := insRecs (idxOf l s.mapLayers) (rd l).records s.store,
               storeMuts := s.storeMuts + 1 } := by
  rw [show f + 2 = (f + 1) + 1 from rfl, run_onAddLayer]
  have h1 : (attach s l).adding = false := ha
  simp only [h1, if_true]
  rw [run_storeInsert]
  rw [fireStoreAdd_guarded rd f _ _ _ (by rfl)]
  cases s
  simp only at ha
  subst ha
  simp [attach]

theorem onAddLoop_closed (rd : Nat → ReadResult) :
    ∀ (recs : List Rec) (f : Nat) (s : St) (i : Nat), s.adding = true → s.colListening = true →
      run rd (f + recs.length + 3) (.onAddLoop recs i) s =
        { s with
            mapLayers := recs.foldl
              (fun m r => if i = 0 then m ++ [r.layer] else insAt i r.layer m) s.mapLayers,
            listeners := recs.foldl (fun acc r => r.layer :: r.layer :: acc) s.listeners,
            mapMuts := s.mapMuts + recs.length } := by
  intro recs
  induction recs with
  | nil =>
      intro f s i ha hc
      rw [show f + List.length ([] : List Rec) + 3 = (f + 2) + 1 by
        simp only [List.length_nil]; try omega]
      rw [run_onAddLoop_nil]
      cases s
      simp
  | cons r rs ih =>
      intro f s i ha hc
      rw [show f + (r :: rs).length + 3 = (f + rs.length + 3) + 1 by
        simp only [List.length_cons]; try omega]
      rw [run_onAddLoop_cons]
      by_cases hi : i = 0
      · subst hi
        rw [if_pos rfl]
        rw [mapPush_adding rd (f + rs.length) _ r.layer (by exact ha) (by exact hc)]
        rw [ih f _ 0 (by exact ha) (by exact hc)]
        cases s
        simp [attach, St.mk.injEq]
        all_goals omega
      · rw [if_neg hi]
        rw [mapInsertAt_adding rd (f + rs.length) _ i r.layer (by exact ha) (by exact hc)]
        rw [ih f _ i (by exact ha) (by exact hc)]
        cases s
        simp [attach, hi, St.mk.injEq]
        all_goals omega

theorem onAdd_live (rd : Nat → ReadResult) (f : Nat) (s : St) (recs : List Rec) (i : Nat)
    (ha : s.adding = false) (hc : s.colListening = true) :
    run rd (f + recs.length + 4) (.onAdd recs i) s =
      { s with
          mapLayers := recs.foldl
            (fun m r => if i = 0 then m ++ [r.layer] else insAt i r.layer m) s.mapLayers,
          listeners := recs.foldl (fun acc r => r.layer :: r.layer :: acc) s.listeners,
          mapMuts := s.mapMuts + recs.length } := by
  rw [show f + recs.length + 4 = (f + recs.length + 3) + 1 by omega, run_onAdd]
  simp only [ha, if_true]
  rw [onAddLoop_closed rd recs f _ i (by rfl) (by exact hc)]

theorem storeInsert_live (rd : Nat → ReadResult) (f : Nat) (s : St) (i : Nat) (recs : List Rec)
    (ha : s.adding = false) (hs : s.storeListening = true) (hc : s.colListening = true) :
    run rd (f + recs.length + 6) (.storeInsert i recs) s =
      { s with
          store := insRecs i recs s.store,
          storeMuts := s.storeMuts + 1,
          mapLayers := recs.foldl
            (fun m r => if i = 0 then m ++ [r.layer] else insAt i r.layer m) s.mapLayers,
          listeners := recs.foldl (fun acc r => r.layer :: r.layer :: acc) s.listeners,
          mapMuts := s.mapMuts + recs.length } := by
  rw [show f + recs.length + 6 = (f + recs.length + 5) + 1 by omega, run_storeInsert]
  rw [show f + recs.length + 5 = (f + recs.length + 4) + 1 by omega, run_fireStoreAdd]
  simp only [hs, if_true]
  rw [onAdd_live rd f _ recs i (by exact ha) (by exact hc)]

theorem mapPush_live (rd : Nat → ReadResult) (f : Nat) (s : St) (l : Nat)
    (ha : s.adding = false) (hc : s.colListening = true) :
    run rd (f + 4) (.mapPush l) s =
      { s with
          mapLayers := s.mapLayers ++ [l],
          mapMuts := s.mapMuts + 1,
          listeners := l :: s.listeners,
          store := insRecs (idxOf l (s.mapLayers ++ [l])) (rd l).records s.store,
          storeMuts := s.storeMuts + 1 } := by
  rw [show f + 4 = (f + 3) + 1 from rfl, run_mapPush]
  rw [show f + 3 = (f + 2) + 1 from rfl, run_fireMapAdd]
  simp only [hc, if_true]
  rw [onAddLayer_char rd f _ l (by exact ha)]

theorem onRemoveLayer_live (rd : Nat → ReadResult) (f : Nat) (s : St) (l i : Nat) (r : Rec)
    (hrm : s.removing = false) (hf : findRec s.store l 0 = some (i, r)) :
    run rd (f + 3) (.onRemoveLayer l) s =
      { s with listeners := erase1 s.listeners l,
               store := eraseRec s.store r,
               storeMuts := s.storeMuts + 1 } := by
  rw [show f + 3 = (f + 2) + 1 from rfl, run_onRemoveLayer]
  rw [if_pos hrm, hf]
  dsimp only
  rw [show f + 2 = (f + 1) + 1 from rfl, run_storeRemove]
  have hmem : r ∈ s.store := (findRec_sound s.store l 0 i r hf).1
  rw [if_pos (show r ∈ (detach { s with removing := true } l).store from hmem)]
  rw [fireStoreRemove_guarded rd (f + 1) _ r (by rfl)]
  cases s
  simp only at hrm
  subst hrm
  rfl

theorem onRemoveLayer_none (rd : Nat → ReadResult) (f : Nat) (s : St) (l : Nat)
    (hrm : s.removing = false) (hf : findRec s.store l 0 = none) :
    run rd (f + 1) (.onRemoveLayer l) s = s := by
  rw [run_onRemoveLayer, if_pos hrm, hf]

theorem onRemove_live (rd : Nat → ReadResult) (f : Nat) (s : St) (r : Rec)
    (hrm : s.removing = false) (hmem : r.layer ∈ s.mapLayers) :
    run rd (f + 3) (.onRemove r) s =
      { s with listeners := erase1 s.listeners r.layer,
               mapLayers := erase1 s.mapLayers r.layer,
               mapMuts := s.mapMuts + 1 } := by
  rw [show f + 3 = (f + 2) + 1 from rfl, run_onRemove]
  rw [if_pos hrm]
  rw [if_pos (show r.layer ∈ (detach s r.layer).mapLayers from hmem)]
  rw [show f + 2 = (f + 1) + 1 from rfl, run_mapRemove]
  rw [if_pos (show r.layer ∈
    ({ detach s r.layer with removing := true } : St).mapLayers from hmem)]
  rw [fireMapRemove_guarded rd (f + 1) _ r.layer (by rfl)]
  cases s
  simp only at hrm
  subst hrm
  rfl

theorem storeRemove_live (rd : Nat → ReadResult) (f : Nat) (s : St) (r : Rec)
    (hrm : s.removing = false) (hs : s.storeListening = true)
    (hmemS : r ∈ s.store) (hmemL : r.layer ∈ s.mapLayers) :
    run rd (f + 5) (.storeRemove r) s =
      { s with store := eraseRec s.store r,
               storeMuts := s.storeMuts + 1,
               listeners := erase1 s.listeners r.layer,
               mapLayers := erase1 s.mapLayers r.layer,
               mapMuts := s.mapMuts + 1 } := by
  rw [show f + 5 = (f + 4) + 1 from rfl, run_storeRemove]
  rw [if_pos hmemS]
  rw [show f + 4 = (f + 3) + 1 from rfl, run_fireStoreRemove]
  rw [if_pos (show ({ s with store := eraseRec s.store r, storeMuts := s.storeMuts + 1 } : St).storeListening
    = true from hs)]
  rw [onRemove_live rd f _ r (by exact hrm) (by exact hmemL)]

theorem mapRemove_live (rd : Nat → ReadResult) (f : Nat) (s : St) (l i : Nat) (r : Rec)
    (hmem : l ∈ s.mapLayers) (hc : s.colListening = true) (hrm : s.removing = false)
    (hf : findRec s.store l 0 = some (i, r)) :
    run rd (f + 5) (.mapRemove l) s =
      { s with mapLayers := erase1 s.mapLayers l,
               mapMuts := s.mapMuts + 1,
               listeners := erase1 s.listeners l,
               store := eraseRec s.store r,
               storeMuts := s.storeMuts + 1 } := by
  rw [show f + 5 = (f + 4) + 1 from rfl, run_mapRemove]
  rw [if_pos hmem]
  rw [show f + 4 = (f + 3) + 1 from rfl, run_fireMapRemove]
  rw [if_pos (show ({ s with mapLayers := erase1 s.mapLayers l, mapMuts := s.mapMuts + 1 } : St).colListening
    = true from hc)]
  rw [onRemoveLayer_live rd f _ l i r (by exact hrm) (by exact hf)]

theorem mapRemove_none (rd : Nat → ReadResult) (f : Nat) (s : St) (l : Nat)
    (hmem : l ∈ s.mapLayers) (hc : s.colListening = true) (hrm : s.removing = false)
    (hf : findRec s.store l 0 = none) :
    run rd (f + 3) (.mapRemove l) s =
      { s with mapLayers := erase1 s.mapLayers l, mapMuts := s.mapMuts + 1 } := by
  rw [show f + 3 = (f + 2) + 1 from rfl, run_mapRemove]
  rw [if_pos hmem]
  rw [show f + 2 = (f + 1) + 1 from rfl, run_fireMapRemove]
  rw [if_pos (show ({ s with mapLayers := erase1 s.mapLayers l, mapMuts := s.mapMuts + 1 } : St).colListening
    = true from hc)]
  rw [onRemoveLayer_none rd f _ l (by exact hrm) (by exact hf)]

/-! The propertychange cascade around the title of a layer. -/

theorem findRec_get0 (xs : List Rec) (l i : Nat) (r : Rec)
    (h : findRec xs l 0 = some (i, r)) : xs[i]? = some r := by
  have hh := (findRec_sound xs l 0 i r h).2.2.2
  simpa using hh

theorem findRec_layer (xs : List Rec) (l k i : Nat) (r : Rec)
    (h : findRec xs l k = some (i, r)) : r.layer = l :=
  (findRec_sound xs l k i r h).2.1

theorem findRec_set : ∀ (xs : List Rec) (l k i : Nat) (r r2 : Rec),
    findRec xs l k = some (i, r) → r2.layer = l →
      findRec (xs.set (i - k) r2) l k = some (i, r2) := by
  intro xs
  induction xs with
  | nil => intro l k i r r2 h _; simp [findRec] at h
  | cons x xs ih =>
      intro l k i r r2 h h2
      rw [findRec] at h
      by_cases hx : x.layer = l
      · simp only [hx, if_true, Option.some.injEq, Prod.mk.injEq] at h
        obtain ⟨hi, _⟩ := h
        subst hi
        simp only [Nat.sub_self, List.set]
        rw [findRec, if_pos h2]
      · rw [if_neg hx] at h
        have hk1 : k + 1 ≤ i := (findRec_sound xs l (k + 1) i r h).2.2.1
        have hik : i - k = (i - (k + 1)) + 1 := by omega
        rw [hik]
        simp only [List.set]
        rw [findRec, if_neg hx]
        exact ih l (k + 1) i r r2 h h2

theorem findRec_set0 (xs : List Rec) (l i : Nat) (r r2 : Rec)
    (h : findRec xs l 0 = some (i, r)) (h2 : r2.layer = l) :
    findRec (xs.set i r2) l 0 = some (i, r2) := by
  have hh := findRec_set xs l 0 i r r2 h h2
  simpa using hh

theorem recSetTitle_noop (s : St) (i : Nat) (v : String) (r : Rec)
    (hget : s.store[i]? = some r) (ht : r.title = v) : recSetTitle s i v = s := by
  unfold recSetTitle
  rw [hget]
  dsimp only
  rw [if_pos ht]

theorem recSetTitle_set (s : St) (i : Nat) (v : String) (r : Rec)
    (hget : s.store[i]? = some r) (ht : ¬ r.title = v) :
    recSetTitle s i v =
      { s with store := s.store.set i { r with title := v, modifiedTitle := true },
               storeMuts := s.storeMuts + 1 } := by
  unfold recSetTitle
  rw [hget]
  dsimp only
  rw [if_neg ht]

theorem onChangeLayer_title_char (rd : Nat → ReadResult) (f : Nat) (s : St) (l i : Nat) (r : Rec)
    (hf : findRec s.store l 0 = some (i, r)) :
    run rd (f + 1) (.onChangeLayer "title" l) s =
      recSetTitle { s with chgCalls := s.chgCalls + 1 } i (getTitle s l) := by
  rw [run_onChangeLayer, hf]
  dsimp only
  rw [if_pos rfl]

theorem onChangeLayer_none_char (rd : Nat → ReadResult) (f : Nat) (s : St) (key : String) (l : Nat)
    (hf : findRec s.store l 0 = none) :
    run rd (f + 1) (.onChangeLayer key l) s = { s with chgCalls := s.chgCalls + 1 } := by
  rw [run_onChangeLayer, hf]

theorem fireTitleLoop_noop (rd : Nat → ReadResult) :
    ∀ (n f : Nat) (s : St) (l i : Nat) (r : Rec),
      findRec s.store l 0 = some (i, r) → r.title = getTitle s l →
        run rd (f + n + 1) (.fireTitleLoop l n) s = { s with chgCalls := s.chgCalls + n } := by
  intro n
  induction n with
  | zero =>
      intro f s l i r _ _
      rw [run_fireTitleLoop_zero]
      cases s
      simp
  | succ n ih =>
      intro f s l i r hf ht
      rw [show f + (n + 1) + 1 = (f + n + 1) + 1 by omega, run_fireTitleLoop_succ]
      rw [onChangeLayer_title_char rd (f + n) s l i r hf]
      rw [recSetTitle_noop _ i _ r (by exact findRec_get0 s.store l i r hf) (by exact ht)]
      rw [ih f _ l i r (by exact hf) (by exact ht)]
      cases s
      simp
      try omega

theorem getTitle_push (s : St) (l : Nat) (v : String) :
    getTitle { s with titles := (l, v) :: s.titles, mapMuts := s.mapMuts + 1 } l = v := by
  simp [getTitle, lookupT]

theorem layerSetTitle_noop (rd : Nat → ReadResult) (f n : Nat) (s : St) (l i : Nat) (v : String)
    (r : Rec) (hcount : countN s.listeners l = n) (hf : findRec s.store l 0 = some (i, r))
    (ht : r.title = v) :
    run rd (f + n + 2) (.layerSetTitle l v) s =
      (if getTitle s l = v then { s with chgCalls := s.chgCalls + n }
        else { s with titles := (l, v) :: s.titles, mapMuts := s.mapMuts + 1,
                      chgCalls := s.chgCalls + n }) := by
  rw [show f + n + 2 = (f + n + 1) + 1 by omega, run_layerSetTitle]
  by_cases hg : getTitle s l = v
  · rw [if_pos hg, if_pos hg, hcount]
    exact fireTitleLoop_noop rd n f s l i r hf (ht.trans hg.symm)
  · rw [if_neg hg, if_neg hg]
    rw [show countN
      ({ s with titles := (l, v) :: s.titles, mapMuts := s.mapMuts + 1 } : St).listeners l = n
      from hcount]
    exact fireTitleLoop_noop rd n f _ l i r (by exact hf)
      (by rw [getTitle_push]; exact ht)

theorem fireTitle_hit (rd : Nat → ReadResult) (n f : Nat) (s : St) (l i : Nat) (v : String)
    (r : Rec) (hf : findRec s.store l 0 = some (i, r)) (hne : ¬ r.title = v)
    (hgt : getTitle s l = v) :
    run rd (f + n + 3) (.fireTitleLoop l (n + 1)) s =
      { s with store := s.store.set i { r with title := v, modifiedTitle := true },
               storeMuts := s.storeMuts + 1, chgCalls := s.chgCalls + (n + 1) } := by
  rw [show f + n + 3 = (f + n + 2) + 1 by omega, run_fireTitleLoop_succ]
  rw [onChangeLayer_title_char rd (f + n + 1) s l i r hf]
  rw [hgt]
  rw [recSetTitle_set _ i _ r (by exact findRec_get0 s.store l i r hf) (by exact hne)]
  rw [show f + n + 2 = (f + 1) + n + 1 by omega]
  rw [fireTitleLoop_noop rd n (f + 1) _ l i { r with title := v, modifiedTitle := true }
    (by exact findRec_set0 s.store l i r _ hf (findRec_layer s.store l 0 i r hf))
    (by exact hgt.symm)]
  cases s
  simp
  try omega

theorem layerSetTitle_hit (rd : Nat → ReadResult) (f n : Nat) (s : St) (l i : Nat) (v : String)
    (r : Rec) (hcount : countN s.listeners l = n + 1) (hf : findRec s.store l 0 = some (i, r))
    (hne : ¬ r.title = v) :
    run rd (f + n + 4) (.layerSetTitle l v) s =
      (if getTitle s l = v then
          { s with store := s.store.set i { r with title := v, modifiedTitle := true },
                   storeMuts := s.storeMuts + 1, chgCalls := s.chgCalls + (n + 1) }
        else
          { s with titles := (l, v) :: s.titles, mapMuts := s.mapMuts + 1,
                   store := s.store.set i { r with title := v, modifiedTitle := true },
                   storeMuts := s.storeMuts + 1, chgCalls := s.chgCalls + (n + 1) }) := by
  rw [show f + n + 4 = (f + n + 3) + 1 by omega, run_layerSetTitle]
  by_cases hg : getTitle s l = v
  · rw [if_pos hg, if_pos hg, hcount]
    rw [fireTitle_hit rd n f s l i v r hf hne hg]
  · rw [if_neg hg, if_neg hg]
    rw [show countN
      ({ s with titles := (l, v) :: s.titles, mapMuts := s.mapMuts + 1 } : St).listeners l = n + 1
      from hcount]
    rw [fireTitle_hit rd n f _ l i v r (by exact hf) (by exact hne)
      (by exact getTitle_push s l v)]

theorem foldl_cons_rev : ∀ (ls acc : List Nat),
    ls.foldl (fun a l => l :: a) acc = ls.reverse ++ acc := by
  intro ls
  induction ls with
  | nil => intro acc; simp
  | cons x xs ih => intro acc; simp [List.foldl_cons, ih]

set_option maxHeartbeats 1000000 in
theorem onLoad_true_char (rd : Nat → ReadResult) (s : St) (recs : List Rec)
    (ha : s.adding = false) (hrm : s.removing = false) (hc : s.colListening = true) :
    onLoad rd s recs true =
      { s with
          mapLayers := (if s.addRecords = true then s.mapLayers else [])
            ++ recs.map (fun r => r.layer),
          listeners := (recs.map (fun r => r.layer)).reverse
            ++ (recs.map (fun r => r.layer)).reverse
            ++ (if s.addRecords = true then s.listeners
                else s.mapLayers.foldl (fun acc l => erase1 acc l) s.listeners),
          mapMuts := s.mapMuts
            + (if s.addRecords = true then 0 else s.mapLayers.length) + recs.length,
          addRecords := false } := by
  unfold onLoad
  rw [show s.mapLayers.length + recs.length + DEPTH
    = (s.mapLayers.length + recs.length + 23) + 1 from rfl]
  rw [run_onLoad_true]
  dsimp only
  cases hAR : s.addRecords with
  | true =>
      rw [if_neg (show ¬(true = false) from by simp)]
      cases recs with
      | nil =>
          rw [if_neg (show ¬(0 < List.length ([] : List Rec)) from by simp)]
          cases s
          simp only at ha hrm hc hAR
          subst ha; subst hrm; subst hc; subst hAR
          simp
      | cons r0 rs =>
          rw [if_pos (show 0 < (r0 :: rs).length from by simp)]
          rw [show s.mapLayers.length + (r0 :: rs).length + 23
            = (s.mapLayers.length + 20) + ((r0 :: rs).map (fun r => r.layer)).length + 3
            from by simp [List.length_map, List.length_cons]; try omega]
          rw [mapExtend_adding rd ((r0 :: rs).map (fun r => r.layer))
            (s.mapLayers.length + 20) _ (by rfl) (by exact hc)]
          cases s
          simp only at ha hrm hc hAR
          subst ha; subst hrm; subst hc; subst hAR
          simp [attachList, foldl_cons_rev, St.mk.injEq]
          try omega
  | false =>
      rw [if_pos (show (false = false) from rfl)]
      rw [show s.mapLayers.length + recs.length + 23
        = (recs.length + 22)
          + (detachAllMap { s with removing := true, addRecords := false }).mapLayers.length + 1
        from by
          simp only [show (detachAllMap
            { s with removing := true, addRecords := false }).mapLayers = s.mapLayers from rfl]
          omega]
      rw [mapClearLoop_removing rd
        ((detachAllMap { s with removing := true, addRecords := false }).mapLayers.length)
        (recs.length + 22)
        (detachAllMap { s with removing := true, addRecords := false }) (by rfl) (by rfl)]
      cases recs with
      | nil =>
          rw [if_neg (show ¬(0 < List.length ([] : List Rec)) from by simp)]
          cases s
          simp only at ha hrm hc hAR
          subst ha; subst hrm; subst hc; subst hAR
          simp [detachAllMap]
      | cons r0 rs =>
          rw [if_pos (show 0 < (r0 :: rs).length from by simp)]
          rw [show (r0 :: rs).length + 22
              + (detachAllMap
                  { s with removing := true, addRecords := false }).mapLayers.length + 1
            = (s.mapLayers.length + 20) + ((r0 :: rs).map (fun r => r.layer)).length + 3
            from by
              simp only [show (detachAllMap
                { s with removing := true, addRecords := false }).mapLayers = s.mapLayers
                from rfl, List.length_map, List.length_cons]
              omega]
          rw [mapExtend_adding rd ((r0 :: rs).map (fun r => r.layer))
            (s.mapLayers.length + 20) _ (by rfl) (by exact hc)]
          cases s
          simp only at ha hrm hc hAR
          subst ha; subst hrm; subst hc; subst hAR
          simp [attachList, detachAllMap, foldl_cons_rev, St.mk.injEq]
          try omega

theorem onClear_char (rd : Nat → ReadResult) (s : St) (hrm : s.removing = false) :
    onClear rd s =
      { s with mapLayers := [],
               listeners := s.mapLayers.foldl (fun acc l => erase1 acc l) s.listeners,
               mapMuts := s.mapMuts + s.mapLayers.length } := by
  unfold onClear
  rw [show s.mapLayers.length + DEPTH = (s.mapLayers.length + 23) + 1 from rfl]
  rw [run_onClear]
  rw [show s.mapLayers.length + 23
    = 22 + (detachAllMap { s with removing := true }).mapLayers.length + 1
    from by
      simp only [show (detachAllMap { s with removing := true }).mapLayers = s.mapLayers
        from rfl]
      omega]
  rw [mapClearLoop_removing rd ((detachAllMap { s with removing := true }).mapLayers.length)
    22 (detachAllMap { s with removing := true }) (by rfl) (by rfl)]
  cases s
  simp only at hrm
  subst hrm
  simp [detachAllMap]

theorem onLoad_false_char (rd : Nat → ReadResult) (s : St) (recs : List Rec) :
    onLoad rd s recs false = { s with addRecords := false } := by
  unfold onLoad
  rw [show s.mapLayers.length + recs.length + DEPTH
    = (s.mapLayers.length + recs.length + 23) + 1 from rfl]
  rw [run_onLoad_false]

theorem loadRawData_fail (rd : Nat → ReadResult) (s : St) (d : Nat) (append : Bool)
    (h : (rd d).success = false) : loadRawData rd s d append = s := by
  unfold loadRawData
  simp [h]

theorem unbindMap_spec (s : St) :
    (unbindMap s).colListening = (if s.mapBound then false else s.colListening)
      ∧ (unbindMap s).storeListening = false
      ∧ (unbindMap s).replaceListening = false
      ∧ (unbindMap s).mapBound = false
      ∧ (unbindMap s).listeners = s.listeners
      ∧ (unbindMap s).store = s.store
      ∧ (unbindMap s).mapLayers = s.mapLayers
      ∧ (unbindMap s).titles = s.titles := by
  cases hb : s.mapBound <;> simp [unbindMap, hb]

theorem unbindMap_idem (s : St) : unbindMap (unbindMap s) = unbindMap s := by
  by_cases hb : s.mapBound <;> simp [unbindMap, hb]

theorem unbindMapE_ok (s : St) : unbindMapE s = .ok (unbindMap s) := by
  cases hb : s.mapBound <;> simp [unbindMapE, getLayersE, hb]

theorem onAddLayerE_err_char (rdE : Nat → Except Unit ReadResult) (s : St) (l : Nat)
    (e : Unit) (ha : s.adding = false) (hrd : rdE l = .error e) :
    onAddLayerE rdE s l = ({ attach s l with adding := true }, true) := by
  unfold onAddLayerE
  dsimp only
  rw [if_pos (show (attach s l).adding = false from ha), hrd]

theorem onAddLayerE_ok_char (rdE : Nat → Except Unit ReadResult) (s : St) (l : Nat)
    (res : ReadResult) (ha : s.adding = false) (hrd : rdE l = .ok res) :
    onAddLayerE rdE s l =
      ({ s with listeners := l :: s.listeners,
                store := insRecs (idxOf l s.mapLayers) res.records s.store,
                storeMuts := s.storeMuts + 1 }, false) := by
  unfold onAddLayerE
  dsimp only
  rw [if_pos (show (attach s l).adding = false from ha), hrd]
  dsimp only
  rw [show res.records.length + DEPTH = (res.records.length + 23) + 1 from rfl]
  rw [run_storeInsert]
  rw [fireStoreAdd_guarded (fun _ => res) (res.records.length + 23) _ _ _ (by rfl)]
  cases s
  simp only at ha
  subst ha
  rfl

theorem onStoreUpdate_char (rd : Nat → ReadResult) (f n : Nat) (s : St) (r : Rec) (i : Nat)
    (hf : findRec s.store r.layer 0 = some (i, r))
    (hcount : countN s.listeners r.layer = n) :
    (run rd (f + n + 5) (.onStoreUpdate r Op.edit) s).store = s.store
      ∧ (run rd (f + n + 5) (.onStoreUpdate r Op.edit) s).listeners = s.listeners
      ∧ (run rd (f + n + 5) (.onStoreUpdate r Op.edit) s).mapLayers = s.mapLayers
      ∧ (run rd (f + n + 5) (.onStoreUpdate r Op.edit) s).storeMuts = s.storeMuts
      ∧ (run rd (f + n + 5) (.onStoreUpdate r Op.edit) s).updEvents = s.updEvents := by
  rw [show f + n + 5 = (f + n + 4) + 1 by omega, run_onStoreUpdate]
  rw [if_pos rfl]
  by_cases hmt : r.modifiedTitle = true
  · rw [if_pos hmt]
    by_cases hteq : r.title = getTitle s r.layer
    · rw [if_pos hteq]
      exact ⟨rfl, rfl, rfl, rfl, rfl⟩
    · rw [if_neg hteq]
      rw [show f + n + 4 = (f + 2) + n + 2 by omega]
      rw [layerSetTitle_noop rd (f + 2) n s r.layer i r.title r hcount hf rfl]
      rw [if_neg (show ¬(getTitle s r.layer = r.title) from fun h => hteq h.symm)]
      exact ⟨rfl, rfl, rfl, rfl, rfl⟩
  · rw [if_neg hmt]
    exact ⟨rfl, rfl, rfl, rfl, rfl⟩

theorem onChangeLayer_title_full (rd : Nat → ReadResult) (s : St) (l i : Nat) (r : Rec)
    (hf : findRec s.store l 0 = some (i, r)) :
    onChangeLayer rd s "title" l =
      recSetTitle { s with chgCalls := s.chgCalls + 1 } i (getTitle s l) := by
  unfold onChangeLayer
  rw [show countN s.listeners l + DEPTH = (countN s.listeners l + 23) + 1 from rfl]
  exact onChangeLayer_title_char rd _ s l i r hf

theorem onChangeLayer_none_full (rd : Nat → ReadResult) (s : St) (key : String) (l : Nat)
    (hf : findRec s.store l 0 = none) :
    onChangeLayer rd s key l = { s with chgCalls := s.chgCalls + 1 } := by
  unfold onChangeLayer
  rw [show countN s.listeners l + DEPTH = (countN s.listeners l + 23) + 1 from rfl]
  exact onChangeLayer_none_char rd _ s key l hf

theorem onReplace_live_none (rd : Nat → ReadResult) (s : St) (r : Rec)
    (hrm : s.removing = false) (hc : s.colListening = true) (hmem : r.layer ∈ s.mapLayers)
    (hf : findRec s.store r.layer 0 = none) :
    onReplace rd s r =
      { s with mapLayers := erase1 s.mapLayers r.layer, mapMuts := s.mapMuts + 1 } := by
  unfold onReplace
  rw [show DEPTH = 23 + 1 from rfl, run_onReplace]
  rw [show (23 : Nat) = 20 + 3 from rfl]
  exact mapRemove_none rd 20 s r.layer hmem hc hrm hf

theorem onChangeLayer_other_full (rd : Nat → ReadResult) (s : St) (key : String) (l i : Nat)
    (r : Rec) (hf : findRec s.store l 0 = some (i, r)) (hkey : ¬ key = "title") :
    (onChangeLayer rd s key l).store = s.store
      ∧ (onChangeLayer rd s key l).updEvents = s.updEvents + 1
      ∧ (onChangeLayer rd s key l).listeners = s.listeners
      ∧ (onChangeLayer rd s key l).mapLayers = s.mapLayers
      ∧ (onChangeLayer rd s key l).storeMuts = s.storeMuts := by
  have hl : r.layer = l := findRec_layer s.store l 0 i r hf
  unfold onChangeLayer
  rw [show countN s.listeners l + DEPTH = (countN s.listeners l + 23) + 1 from rfl]
  rw [run_onChangeLayer, hf]
  dsimp only
  rw [if_neg hkey]
  rw [show countN s.listeners l + 23 = (countN s.listeners l + 22) + 1 from rfl]
  rw [run_fireStoreUpdate]
  set s1 : St := { s with chgCalls := s.chgCalls + 1, updEvents := s.updEvents + 1 } with hs1
  by_cases hsl : s.storeListening = true
  · rw [if_pos (show s1.storeListening = true from hsl)]
    have hn : countN s1.listeners r.layer = countN s.listeners l := by
      show countN s.listeners r.layer = countN s.listeners l
      rw [hl]
    rw [show countN s.listeners l + 22 = 17 + countN s1.listeners r.layer + 5 from by
      rw [hn]; omega]
    have hh := onStoreUpdate_char rd 17 (countN s1.listeners r.layer) s1 r i
      (by show findRec s.store r.layer 0 = some (i, r); rw [hl]; exact hf) rfl
    exact ⟨hh.1, hh.2.2.2.2, hh.2.1, hh.2.2.1, hh.2.2.2.1⟩
  · rw [if_neg (show ¬(s1.storeListening = true) from hsl)]
    exact ⟨rfl, rfl, rfl, rfl, rfl⟩

theorem extRecordEdit_char (rd : Nat → ReadResult) (s : St) (i : Nat) (v : String) (r : Rec)
    (hget : s.store[i]? = some r) (hne : ¬ r.title = v) (hs : s.storeListening = true)
    (hcount : countN s.listeners r.layer = 1)
    (hfind2 : findRec (s.store.set i { r with title := v, modifiedTitle := true }) r.layer 0
      = some (i, { r with title := v, modifiedTitle := true }))
    (hv : ¬ v = getTitle s r.layer) :
    extRecordEdit rd s i v =
      { s with store := s.store.set i { r with title := v, modifiedTitle := true },
               storeMuts := s.storeMuts + 1, updEvents := s.updEvents + 1,
               titles := (r.layer, v) :: s.titles, mapMuts := s.mapMuts + 1,
               chgCalls := s.chgCalls + 1 } := by
  unfold extRecordEdit
  rw [hget]
  dsimp only
  rw [if_neg hne]
  rw [show countN s.listeners r.layer + DEPTH = 1 + DEPTH from by rw [hcount]]
  rw [show (1 : Nat) + DEPTH = 24 + 1 from rfl]
  rw [run_fireStoreUpdate]
  set s1 : St := { s with store := s.store.set i { r with title := v, modifiedTitle := true }, storeMuts := s.storeMuts + 1, updEvents := s.updEvents + 1 } with hs1
  rw [if_pos (show s1.storeListening = true from hs)]
  rw [show (24 : Nat) = 23 + 1 from rfl, run_onStoreUpdate]
  rw [if_pos rfl, if_pos rfl]
  rw [if_neg (show ¬(v = getTitle s1 r.layer) from hv)]
  rw [show (23 : Nat) = 20 + 1 + 2 from by decide]
  rw [layerSetTitle_noop rd 20 1 s1 r.layer i v { r with title := v, modifiedTitle := true }
    (by exact hcount) (by exact hfind2) rfl]
  rw [if_neg (show ¬(getTitle s1 r.layer = v) from fun h => hv h.symm)]

/-! Invocation counting for the propertychange dispatch: every delivery of a
title propertychange runs onChangeLayer exactly once per subscription
instance, whatever the handler then does. -/

theorem recSetTitle_chg (s : St) (i : Nat) (v : String) :
    (recSetTitle s i v).chgCalls = s.chgCalls ∧ (recSetTitle s i v).listeners = s.listeners := by
  unfold recSetTitle
  cases hg : s.store[i]? with
  | none => exact ⟨rfl, rfl⟩
  | some r =>
      dsimp only
      by_cases ht : r.title = v
      · rw [if_pos ht]; exact ⟨rfl, rfl⟩
      · rw [if_neg ht]; exact ⟨rfl, rfl⟩

theorem onChangeTitle_chg (rd : Nat → ReadResult) (f : Nat) (s : St) (l : Nat) :
    (run rd (f + 1) (.onChangeLayer "title" l) s).chgCalls = s.chgCalls + 1
      ∧ (run rd (f + 1) (.onChangeLayer "title" l) s).listeners = s.listeners := by
  rw [run_onChangeLayer]
  cases hfind : findRec s.store l 0 with
  | none => exact ⟨rfl, rfl⟩
  | some p =>
      obtain ⟨i, r⟩ := p
      dsimp only
      rw [if_pos rfl]
      have hh := recSetTitle_chg { s with chgCalls := s.chgCalls + 1 } i (getTitle s l)
      exact ⟨hh.1, hh.2⟩

theorem fireTitleLoop_chg (rd : Nat → ReadResult) :
    ∀ (n f : Nat) (s : St) (l : Nat),
      (run rd (f + n + 1) (.fireTitleLoop l n) s).chgCalls = s.chgCalls + n := by
  intro n
  induction n with
  | zero => intro f s l; rw [run_fireTitleLoop_zero]; omega
  | succ n ih =>
      intro f s l
      rw [show f + (n + 1) + 1 = (f + n + 1) + 1 by omega, run_fireTitleLoop_succ]
      rw [ih f _ l]
      rw [(onChangeTitle_chg rd (f + n) s l).1]
      omega

theorem layerSetTitle_chg (rd : Nat → ReadResult) (f : Nat) (s : St) (l : Nat) (v : String) :
    (run rd (f + countN s.listeners l + 2) (.layerSetTitle l v) s).chgCalls
      = s.chgCalls + countN s.listeners l := by
  rw [show f + countN s.listeners l + 2 = (f + countN s.listeners l + 1) + 1 by omega]
  rw [run_layerSetTitle]
  by_cases hg : getTitle s l = v
  · rw [if_pos hg]
    exact fireTitleLoop_chg rd (countN s.listeners l) f s l
  · rw [if_neg hg]
    rw [show countN ({ s with titles := (l, v) :: s.titles, mapMuts := s.mapMuts + 1 } : St).listeners l = countN s.listeners l from rfl]
    exact fireTitleLoop_chg rd (countN s.listeners l) f _ l

/-! Concrete fixtures for the closed instances below. -/

/-- Reader producing one record per layer, successfully. -/
def rdU : Nat → ReadResult := fun l => ⟨true, [⟨100 + l, l, "", false⟩], 1⟩

/-- Reader that always fails by throwing. -/
def rdErrE : Nat → Except Unit ReadResult := fun _ => .error ()

/-- Reader that always succeeds, in the exception-aware signature. -/
def rdOkE : Nat → Except Unit ReadResult := fun l => .ok ⟨true, [⟨100 + l, l, "", false⟩], 1⟩

/-- A bound, idle state: everything wired, both guards clear, collections
empty. -/
def baseSt : St :=
  ⟨[], [], [], [], true, true, true, true, false, false, false, 0, 0, 0, 0, 0⟩

/-- State for the C1 counterexample: a bound store whose map holds layer 7,
with the addRecords flag set by a loadRecords call with the addRecords
option, i.e. an additive reload in flight. -/
def cx1 : St := { baseSt with mapLayers := [7], listeners := [7], addRecords := true }

/-- A loaded record backed by layer 9. -/
def rec9 : Rec := ⟨1, 9, "A", false⟩

/-- C1 counterexample: on a successful additive load the handler does not
clear the target collection (layer 7 survives) and does extend it (layer 9
appears); the claim asserts the opposite conditionality, namely that the
clear always happens and the extend is skipped for an additive reload, which
would leave neither 7 nor 9 in the collection. -/
theorem C1_counterexample :
    7 ∈ (onLoad rdU cx1 [rec9] true).mapLayers
      ∧ 9 ∈ (onLoad rdU cx1 [rec9] true).mapLayers := by decide

/-- C1 (amended): on a successful load, the handler detaches the listeners
and clears the target collection inside the removing guard only when the
reload is not additive, and it extends the target collection with the layers
of the loaded records (attaching subscriptions) whenever there are loaded
records, regardless of additivity; finally the additive flag is reset. -/
theorem C1_onLoad_amended (rd : Nat → ReadResult) (s : St) (recs : List Rec)
    (ha : s.adding = false) (hrm : s.removing = false) (hc : s.colListening = true) :
    onLoad rd s recs true =
      { s with
          mapLayers := (if s.addRecords = true then s.mapLayers else [])
            ++ recs.map (fun r => r.layer),
          listeners := (recs.map (fun r => r.layer)).reverse
            ++ (recs.map (fun r => r.layer)).reverse
            ++ (if s.addRecords = true then s.listeners
                else s.mapLayers.foldl (fun acc l => erase1 acc l) s.listeners),
          mapMuts := s.mapMuts
            + (if s.addRecords = true then 0 else s.mapLayers.length) + recs.length,
          addRecords := false } :=
  onLoad_true_char rd s recs ha hrm hc

/-- State for the C1 witness: a bound store whose map holds layer 3, not in
an additive reload. -/
def w1C1 : St := { baseSt with mapLayers := [3], listeners := [3] }

/-- C1 witness: the amended load behaviour at a concrete non-additive
reload. -/
theorem C1_witness :
    w1C1.adding = false ∧ w1C1.removing = false ∧ w1C1.colListening = true ∧
    onLoad rdU w1C1 [rec9] true =
      { w1C1 with
          mapLayers := (if w1C1.addRecords = true then w1C1.mapLayers else [])
            ++ [rec9].map (fun r => r.layer),
          listeners := ([rec9].map (fun r => r.layer)).reverse
            ++ ([rec9].map (fun r => r.layer)).reverse
            ++ (if w1C1.addRecords = true then w1C1.listeners
                else w1C1.mapLayers.foldl (fun acc l => erase1 acc l) w1C1.listeners),
          mapMuts := w1C1.mapMuts
            + (if w1C1.addRecords = true then 0 else w1C1.mapLayers.length) + [rec9].length,
          addRecords := false } :=
  ⟨by decide, by decide, by decide, C1_onLoad_amended rdU w1C1 [rec9] rfl rfl rfl⟩

/-- C2 counterexample: when the reader throws inside onAddLayer, the
invocation exits by the thrown error with the adding guard still set, so the
flag is not cleared on that exit path as the claim asserts. -/
theorem C2_counterexample :
    (onAddLayerE rdErrE baseSt 5).2 = true
      ∧ (onAddLayerE rdErrE baseSt 5).1.adding = true := by decide

/-- C2 (amended): every handler that sets a guard flag clears it again on
every normally completing invocation entered with both flags clear, so both
flags end cleared; a thrown error from the read call, however, leaves the
set flag set (see the counterexample). -/
theorem C2_guards_amended :
    (∀ (rdE : Nat → Except Unit ReadResult) (s : St) (l : Nat) (res : ReadResult),
        s.adding = false → s.removing = false → rdE l = .ok res →
          (onAddLayerE rdE s l).2 = false ∧ (onAddLayerE rdE s l).1.adding = false
            ∧ (onAddLayerE rdE s l).1.removing = false) ∧
    (∀ (rd : Nat → ReadResult) (s : St) (l i : Nat) (r : Rec),
        s.adding = false → s.removing = false → findRec s.store l 0 = some (i, r) →
          (onRemoveLayer rd s l).adding = false ∧ (onRemoveLayer rd s l).removing = false) ∧
    (∀ (rd : Nat → ReadResult) (s : St) (recs : List Rec) (b : Bool),
        s.adding = false → s.removing = false → s.colListening = true →
          (onLoad rd s recs b).adding = false ∧ (onLoad rd s recs b).removing = false) ∧
    (∀ (rd : Nat → ReadResult) (s : St),
        s.adding = false → s.removing = false →
          (onClear rd s).adding = false ∧ (onClear rd s).removing = false) ∧
    (∀ (rd : Nat → ReadResult) (s : St) (recs : List Rec) (i : Nat),
        s.adding = false → s.removing = false → s.colListening = true →
          (onAdd rd s recs i).adding = false ∧ (onAdd rd s recs i).removing = false) ∧
    (∀ (rd : Nat → ReadResult) (s : St) (r : Rec),
        s.adding = false → s.removing = false → r.layer ∈ s.mapLayers →
          (onRemove rd s r).adding = false ∧ (onRemove rd s r).removing = false) := by
  refine ⟨?_, ?_, ?_, ?_, ?_, ?_⟩
  · intro rdE s l res ha hrm hrd
    rw [onAddLayerE_ok_char rdE s l res ha hrd]
    exact ⟨rfl, ha, hrm⟩
  · intro rd s l i r ha hrm hf
    unfold onRemoveLayer
    rw [show DEPTH = 21 + 3 from by decide]
    rw [onRemoveLayer_live rd 21 s l i r hrm hf]
    exact ⟨ha, hrm⟩
  · intro rd s recs b ha hrm hc
    cases b with
    | false => rw [onLoad_false_char]; exact ⟨ha, hrm⟩
    | true => rw [onLoad_true_char rd s recs ha hrm hc]; exact ⟨ha, hrm⟩
  · intro rd s ha hrm
    rw [onClear_char rd s hrm]
    exact ⟨ha, hrm⟩
  · intro rd s recs i ha hrm hc
    unfold onAdd
    rw [show recs.length + DEPTH = 20 + recs.length + 4 from by simp [DEPTH]; try omega]
    rw [onAdd_live rd 20 s recs i ha hc]
    exact ⟨ha, hrm⟩
  · intro rd s r ha hrm hmem
    unfold onRemove
    rw [show DEPTH = 21 + 3 from by decide]
    rw [onRemove_live rd 21 s r hrm hmem]
    exact ⟨ha, hrm⟩

/-- C2 witness: a normally completing onAddLayer invocation leaves both
guard flags cleared. -/
theorem C2_witness :
    baseSt.adding = false ∧ baseSt.removing = false
      ∧ rdOkE 5 = .ok ⟨true, [⟨105, 5, "", false⟩], 1⟩
      ∧ ((onAddLayerE rdOkE baseSt 5).2 = false
          ∧ (onAddLayerE rdOkE baseSt 5).1.adding = false
          ∧ (onAddLayerE rdOkE baseSt 5).1.removing = false) :=
  ⟨by decide, by decide, rfl,
    C2_guards_amended.1 rdOkE baseSt 5 ⟨true, [⟨105, 5, "", false⟩], 1⟩ rfl rfl rfl⟩

/-- State for the C3 counterexample: a bound store with map [5]. -/
def s3c : St := { baseSt with mapLayers := [5], listeners := [5], store := [⟨2, 5, "", false⟩] }

/-- C3 counterexample: adding a record at position 0 of the store pushes its
layer onto the END of the layer collection of the map, so the result is
[5, 9] and the new layer 9 is not the first element, against the claim that
it becomes the first element. -/
theorem C3_counterexample :
    (onAdd rdU s3c [rec9] 0).mapLayers = [5, 9]
      ∧ ¬ (onAdd rdU s3c [rec9] 0).mapLayers.head? = some 9 := by decide

/-- C3 (amended): when a record is added to the store at position 0 (adding
guard clear), its layer is pushed onto the end of the layer collection of
the map; at a position greater than 0 it is inserted at that index. -/
theorem C3_onAdd_amended (rd : Nat → ReadResult) (s : St) (r : Rec) (i : Nat)
    (ha : s.adding = false) (hc : s.colListening = true) :
    (i = 0 → (onAdd rd s [r] i).mapLayers = s.mapLayers ++ [r.layer])
      ∧ (0 < i → (onAdd rd s [r] i).mapLayers = insAt i r.layer s.mapLayers) := by
  unfold onAdd
  rw [show List.length [r] + DEPTH = 20 + List.length [r] + 4 from by simp [DEPTH]; try omega]
  rw [onAdd_live rd 20 s [r] i ha hc]
  constructor
  · intro hi
    subst hi
    simp
  · intro hi
    have hi0 : ¬ (i = 0) := by omega
    simp [hi0]

/-- C3 witness: the amended add-at-zero behaviour at a concrete input. -/
theorem C3_witness :
    s3c.adding = false ∧ s3c.colListening = true
      ∧ (onAdd rdU s3c [rec9] 0).mapLayers = s3c.mapLayers ++ [rec9.layer] :=
  ⟨by decide, by decide, (C3_onAdd_amended rdU s3c rec9 0 (by decide) (by decide)).1 rfl⟩

/-- C4: destroy looks up this.unbind, a method that exists neither on the
class nor on the modelled base surface, so every destruction fails with a
TypeError before anything is unbound or released, against the claim that
destruction succeeds after unbinding. -/
theorem C4_destroy_throws (s : St) : destroy s = .error .typeError := by
  unfold destroy
  rw [if_neg (by decide)]

/-- C5: while bound with both guards clear, a single external add, remove or
title edit on either collection propagates exactly one mutation to the other
collection: a map add inserts once into the store; a map remove removes once
from the store; a layer title edit writes the title of the bound record
once; a store add pushes once onto the map; a store remove removes once from
the map; a record title edit writes the layer title once.  The mutation
counters storeMuts and mapMuts count the actual state changes applied to the
respective collection. -/
theorem C5_single_propagation :
    (∀ (rd : Nat → ReadResult) (s : St) (l : Nat),
        s.adding = false → s.colListening = true →
          (extMapAddLayer rd s l).storeMuts = s.storeMuts + 1) ∧
    (∀ (rd : Nat → ReadResult) (s : St) (l i : Nat) (r : Rec),
        l ∈ s.mapLayers → s.colListening = true → s.removing = false →
          findRec s.store l 0 = some (i, r) →
            (extMapRemoveLayer rd s l).storeMuts = s.storeMuts + 1) ∧
    (∀ (rd : Nat → ReadResult) (s : St) (l i : Nat) (v : String) (r : Rec),
        countN s.listeners l = 1 → findRec s.store l 0 = some (i, r) → ¬ r.title = v →
          (extLayerSetTitle rd s l v).storeMuts = s.storeMuts + 1) ∧
    (∀ (rd : Nat → ReadResult) (s : St) (i : Nat) (r1 : Rec),
        s.adding = false → s.storeListening = true → s.colListening = true →
          (extStoreInsert rd s i [r1]).mapMuts = s.mapMuts + 1) ∧
    (∀ (rd : Nat → ReadResult) (s : St) (r : Rec),
        s.removing = false → s.storeListening = true → r ∈ s.store →
          r.layer ∈ s.mapLayers →
            (extStoreRemove rd s r).mapMuts = s.mapMuts + 1) ∧
    (∀ (rd : Nat → ReadResult) (s : St) (i : Nat) (v : String) (r : Rec),
        s.store[i]? = some r → ¬ r.title = v → s.storeListening = true →
          countN s.listeners r.layer = 1 →
          findRec (s.store.set i { r with title := v, modifiedTitle := true }) r.layer 0
            = some (i, { r with title := v, modifiedTitle := true }) →
          ¬ v = getTitle s r.layer →
            (extRecordEdit rd s i v).mapMuts = s.mapMuts + 1) := by
  refine ⟨?_, ?_, ?_, ?_, ?_, ?_⟩
  · intro rd s l ha hc
    unfold extMapAddLayer
    rw [show (rd l).records.length + DEPTH = (rd l).records.length + 20 + 4 from by
      simp [DEPTH]; try omega]
    rw [mapPush_live rd ((rd l).records.length + 20) s l ha hc]
  · intro rd s l i r hmem hc hrm hf
    unfold extMapRemoveLayer
    rw [show DEPTH = 19 + 5 from by decide]
    rw [mapRemove_live rd 19 s l i r hmem hc hrm hf]
  · intro rd s l i v r hcount hf hne
    unfold extLayerSetTitle
    rw [hcount]
    rw [show (1 : Nat) + DEPTH = 21 + 0 + 4 from by decide]
    rw [layerSetTitle_hit rd 21 0 s l i v r (by rw [hcount]) hf hne]
    by_cases hgt : getTitle s l = v
    · rw [if_pos hgt]
    · rw [if_neg hgt]
  · intro rd s i r1 ha hs hc
    unfold extStoreInsert
    rw [show List.length [r1] + DEPTH = 18 + List.length [r1] + 6 from by
      simp [DEPTH]; try omega]
    rw [storeInsert_live rd 18 s i [r1] ha hs hc]
    simp
  · intro rd s r hrm hs hmemS hmemL
    unfold extStoreRemove
    rw [show DEPTH = 19 + 5 from by decide]
    rw [storeRemove_live rd 19 s r hrm hs hmemS hmemL]
  · intro rd s i v r hget hne hs hcount hfind2 hv
    rw [extRecordEdit_char rd s i v r hget hne hs hcount hfind2 hv]

/-- State for the C5 witness: a bound store with one record bound to
layer 2. -/
def s5w : St := { baseSt with store := [⟨1, 2, "a", false⟩], mapLayers := [2], titles := [(2, "a")], listeners := [2] }

/-- C5 witness: exactly one mutation reaches the other collection in a
concrete map-side add and a concrete map-side remove. -/
theorem C5_witness :
    s5w.adding = false ∧ s5w.colListening = true ∧ s5w.removing = false
      ∧ (2 : Nat) ∈ s5w.mapLayers ∧ findRec s5w.store 2 0 = some (0, ⟨1, 2, "a", false⟩)
      ∧ (extMapAddLayer rdU s5w 7).storeMuts = s5w.storeMuts + 1
      ∧ (extMapRemoveLayer rdU s5w 2).storeMuts = s5w.storeMuts + 1 :=
  ⟨by decide, by decide, by decide, by decide, by decide,
    C5_single_propagation.1 rdU s5w 7 (by decide) (by decide),
    C5_single_propagation.2.1 rdU s5w 2 0 ⟨1, 2, "a", false⟩ (by decide) (by decide)
      (by decide) (by decide)⟩

/-- C6: a propertychange for the key title writes the title of the bound
record directly and fires no update notification of the store, leaving
everything else alone; a propertychange for any other key fires exactly one
update notification and leaves the store contents, in particular the title
field, unchanged; with no bound record the handler does nothing. -/
theorem C6_title_fast_path :
    (∀ (rd : Nat → ReadResult) (s : St) (l i : Nat) (r : Rec),
        findRec s.store l 0 = some (i, r) →
          (onChangeLayer rd s "title" l).updEvents = s.updEvents
            ∧ (onChangeLayer rd s "title" l).listeners = s.listeners
            ∧ (onChangeLayer rd s "title" l).mapLayers = s.mapLayers
            ∧ (onChangeLayer rd s "title" l).titles = s.titles
            ∧ (onChangeLayer rd s "title" l).store =
                (if r.title = getTitle s l then s.store
                  else s.store.set i { r with title := getTitle s l, modifiedTitle := true })) ∧
    (∀ (rd : Nat → ReadResult) (s : St) (key : String) (l i : Nat) (r : Rec),
        findRec s.store l 0 = some (i, r) → ¬ key = "title" →
          (onChangeLayer rd s key l).updEvents = s.updEvents + 1
            ∧ (onChangeLayer rd s key l).store = s.store
            ∧ (onChangeLayer rd s key l).listeners = s.listeners
            ∧ (onChangeLayer rd s key l).mapLayers = s.mapLayers) ∧
    (∀ (rd : Nat → ReadResult) (s : St) (key : String) (l : Nat),
        findRec s.store l 0 = none →
          onChangeLayer rd s key l = { s with chgCalls := s.chgCalls + 1 }) := by
  refine ⟨?_, ?_, ?_⟩
  · intro rd s l i r hf
    rw [onChangeLayer_title_full rd s l i r hf]
    have hget : ({ s with chgCalls := s.chgCalls + 1 } : St).store[i]? = some r :=
      findRec_get0 s.store l i r hf
    by_cases ht : r.title = getTitle s l
    · rw [recSetTitle_noop _ i _ r hget (by exact ht)]
      exact ⟨rfl, rfl, rfl, rfl, by rw [if_pos ht]⟩
    · rw [recSetTitle_set _ i _ r hget (by exact ht)]
      exact ⟨rfl, rfl, rfl, rfl, by rw [if_neg ht]⟩
  · intro rd s key l i r hf hkey
    have hh := onChangeLayer_other_full rd s key l i r hf hkey
    exact ⟨hh.2.1, hh.1, hh.2.2.1, hh.2.2.2.1⟩
  · intro rd s key l hf
    exact onChangeLayer_none_full rd s key l hf

/-- State for the C6 witness: the bound record and its layer disagree on the
title, so the fast path writes the title of the layer into the record. -/
def s6w : St := { baseSt with store := [⟨1, 2, "a", false⟩], mapLayers := [2], titles := [(2, "b")], listeners := [2] }

/-- C6 witness: the title fast path at a concrete input. -/
theorem C6_witness :
    findRec s6w.store 2 0 = some (0, ⟨1, 2, "a", false⟩)
      ∧ ((onChangeLayer rdU s6w "title" 2).updEvents = s6w.updEvents
          ∧ (onChangeLayer rdU s6w "title" 2).listeners = s6w.listeners
          ∧ (onChangeLayer rdU s6w "title" 2).mapLayers = s6w.mapLayers
          ∧ (onChangeLayer rdU s6w "title" 2).titles = s6w.titles
          ∧ (onChangeLayer rdU s6w "title" 2).store =
              (if Rec.title ⟨1, 2, "a", false⟩ = getTitle s6w 2 then s6w.store
                else s6w.store.set 0 { (⟨1, 2, "a", false⟩ : Rec) with
                  title := getTitle s6w 2, modifiedTitle := true })) :=
  ⟨by decide, C6_title_fast_path.1 rdU s6w 2 0 ⟨1, 2, "a", false⟩ (by decide)⟩

/-- State for the C7 counterexample: the data collection already swapped the
old record (backed by layer 3) for a new one backed by layer 4; layer 3 is
still in the map and still has its propertychange subscription. -/
def s7c : St := { baseSt with store := [⟨2, 4, "x", false⟩], mapLayers := [3], listeners := [3] }

/-- The replaced-out record handed to onReplace. -/
def old7 : Rec := ⟨1, 3, "t", false⟩

/-- C7 counterexample: after onReplace the old layer is gone from the map
but its propertychange subscription is still attached, against the claim
that the handler treats the element exactly as the entry-removed case, which
detaches the listener (and would run the remove under the removing
guard). -/
theorem C7_counterexample :
    (onReplace rdU s7c old7).listeners = [3]
      ∧ (onReplace rdU s7c old7).mapLayers = [] := by decide

/-- C7 (amended): onReplace removes the layer of the old record from the
target collection directly, without detaching its propertychange listener
and without setting the removing guard; the remove notification this fires
is handled un-guarded and, since the slot was already replaced so no record
is bound to the layer any more, does nothing further. -/
theorem C7_onReplace_amended (rd : Nat → ReadResult) (s : St) (r : Rec)
    (hrm : s.removing = false) (hc : s.colListening = true) (hmem : r.layer ∈ s.mapLayers)
    (hf : findRec s.store r.layer 0 = none) :
    onReplace rd s r =
      { s with mapLayers := erase1 s.mapLayers r.layer, mapMuts := s.mapMuts + 1 } :=
  onReplace_live_none rd s r hrm hc hmem hf

/-- C7 witness: the amended replace behaviour at a concrete input; the
listeners field of the result equals that of the input state. -/
theorem C7_witness :
    s7c.removing = false ∧ s7c.colListening = true ∧ (3 : Nat) ∈ s7c.mapLayers
      ∧ findRec s7c.store 3 0 = none
      ∧ onReplace rdU s7c old7 =
          { s7c with mapLayers := erase1 s7c.mapLayers old7.layer,
                     mapMuts := s7c.mapMuts + 1 } :=
  ⟨by decide, by decide, by decide, by decide,
    C7_onReplace_amended rdU s7c old7 (by decide) (by decide) (by decide) (by decide)⟩

/-- State for the C8 counterexample: a bound store with one record bound to
layer 2, titles in sync. -/
def s8c : St := { baseSt with store := [⟨1, 2, "a", true⟩], mapLayers := [2], titles := [(2, "a")], listeners := [2] }

/-- C8 counterexample: after unbindMap, a direct title edit on layer 2 still
mutates the store (the record title becomes b), because unbindMap never
detaches the per-layer propertychange subscriptions; this refutes the part
of the claim that no propagation occurs after unbind and that no listener
attached by bind remains active. -/
theorem C8_counterexample :
    (extLayerSetTitle rdU (unbindMap s8c) 2 "b").storeMuts = (unbindMap s8c).storeMuts + 1
      ∧ (extLayerSetTitle rdU (unbindMap s8c) 2 "b").store = [⟨1, 2, "b", true⟩] := by decide

/-- C8 (amended): unbindMap never throws and is idempotent; it detaches the
add and remove listeners of the layer collection when a map is bound,
always detaches the store and replace listeners, and nulls the map; but the
propertychange subscriptions attached to the individual layers remain, so
title edits on layers still propagate to the store after unbind. -/
theorem C8_unbind_amended :
    (∀ s : St, unbindMapE s = .ok (unbindMap s)) ∧
    (∀ s : St, unbindMap (unbindMap s) = unbindMap s) ∧
    (∀ s : St,
        (unbindMap s).colListening = (if s.mapBound then false else s.colListening)
          ∧ (unbindMap s).storeListening = false
          ∧ (unbindMap s).replaceListening = false
          ∧ (unbindMap s).mapBound = false
          ∧ (unbindMap s).listeners = s.listeners) :=
  ⟨unbindMapE_ok, unbindMap_idem, fun s =>
    ⟨(unbindMap_spec s).1, (unbindMap_spec s).2.1, (unbindMap_spec s).2.2.1,
      (unbindMap_spec s).2.2.2.1, (unbindMap_spec s).2.2.2.2.1⟩⟩

/-- C9: when the load notification reports failure, onLoad only resets the
additive flag, mutating neither collection and touching no listeners; and
when the reader reports failure, loadRawData does nothing at all. -/
theorem C9_import_failure :
    (∀ (rd : Nat → ReadResult) (s : St) (recs : List Rec),
        onLoad rd s recs false = { s with addRecords := false }) ∧
    (∀ (rd : Nat → ReadResult) (s : St) (d : Nat) (append : Bool),
        (rd d).success = false → loadRawData rd s d append = s) :=
  ⟨fun rd s recs => onLoad_false_char rd s recs,
    fun rd s d append h => loadRawData_fail rd s d append h⟩

/-- Reader that always reports failure. -/
def rdF : Nat → ReadResult := fun _ => ⟨false, [], 0⟩

/-- C9 witness: a failing read leaves a concrete state untouched. -/
theorem C9_witness :
    (rdF 3).success = false ∧ loadRawData rdF s5w 3 false = s5w :=
  ⟨by decide, C9_import_failure.2 rdF s5w 3 false (by decide)⟩

/-- C10: adding a record directly to the store (adding guard clear) attaches
the propertychange listener to its layer twice, once in onAdd before the
push and once more in onAddLayer, which attaches before checking the guard;
a subsequent title propertychange on that layer therefore invokes
onChangeLayer twice. -/
theorem C10_double_listener (rd : Nat → ReadResult) (s : St) (i : Nat) (r : Rec) (v : String)
    (ha : s.adding = false) (hs : s.storeListening = true) (hc : s.colListening = true)
    (hcount : countN s.listeners r.layer = 0) :
    countN (extStoreInsert rd s i [r]).listeners r.layer = 2
      ∧ (extLayerSetTitle rd (extStoreInsert rd s i [r]) r.layer v).chgCalls
          = (extStoreInsert rd s i [r]).chgCalls + 2 := by
  have hmain : (extStoreInsert rd s i [r]).listeners = r.layer :: r.layer :: s.listeners := by
    unfold extStoreInsert
    rw [show List.length [r] + DEPTH = 18 + List.length [r] + 6 from by simp [DEPTH]; try omega]
    rw [storeInsert_live rd 18 s i [r] ha hs hc]
    simp
  have h2 : countN (extStoreInsert rd s i [r]).listeners r.layer = 2 := by
    rw [hmain]
    simp [countN, hcount]
  refine ⟨h2, ?_⟩
  unfold extLayerSetTitle
  rw [show countN (extStoreInsert rd s i [r]).listeners r.layer + DEPTH
    = 22 + countN (extStoreInsert rd s i [r]).listeners r.layer + 2 from by
      simp [DEPTH]; try omega]
  rw [layerSetTitle_chg rd 22 (extStoreInsert rd s i [r]) r.layer v, h2]

/-- The record added directly to the store for the C10 witness. -/
def r10 : Rec := ⟨3, 6, "x", false⟩

/-- C10 witness: the double subscription and double invocation at a concrete
input. -/
theorem C10_witness :
    baseSt.adding = false ∧ baseSt.storeListening = true ∧ baseSt.colListening = true
      ∧ countN baseSt.listeners r10.layer = 0
      ∧ (countN (extStoreInsert rdU baseSt 0 [r10]).listeners r10.layer = 2
          ∧ (extLayerSetTitle rdU (extStoreInsert rdU baseSt 0 [r10]) r10.layer "y").chgCalls
              = (extStoreInsert rdU baseSt 0 [r10]).chgCalls + 2) :=
  ⟨by decide, by decide, by decide, by decide,
    C10_double_listener rdU baseSt 0 r10 "y" (by decide) (by decide) (by decide) (by decide)⟩
